import Mathlib

/-!
Shallow embedding of the core of the 21C1-Rusticos2 in-memory redis-like
server, together with theorems settling the specification claims.

Sources embedded (from src/):
  * comando.rs                  — dispatcher `crear_comando_handler`, `ResultadoRedis`
  * comando_string_handler.rs   — GET / SET / APPEND / GETDEL / STRLEN / INCRBY / DECRBY
  * comando_pubsub_handler.rs   — SUBSCRIBE
  * cliente_redis.rs            — `ClienteRedis::new`, `esta_conectado`
  * persistencia.rs             — snapshot writer, restore, persistence actor loop

Conventions of the embedding:
  * Time is modelled in whole seconds as a `Nat` parameter `now`
    (`std::time::Instant` values become absolute second counts).
  * Machine integers: `i32` arithmetic is `Int` with explicit two's-complement
    wraparound (release-mode overflow semantics, as §8 of the spec documents);
    `u64` / `usize` are `Nat` with explicit range checks where Rust's parser
    checks them.
  * `HashMap<String, Valor>` is an association list where an insert prepends
    and lookup takes the first match, which is observationally the map
    obtained by letting later inserts shadow earlier ones.
  * Rust strings are Lean `String`s; `str::len` is `String.utf8ByteSize`.
  * I/O (sockets, files) is replaced by explicit oracles describing the
    outcome of each primitive operation.
-/

namespace Rusticos

/-! ### Decimal rendering and parsing

`natToString`/`intToString` model Rust's `u64::to_string` / `i32::to_string`
(`Display` for integers); `parseU64` / `parseI32` model `str::parse::<u64>` /
`str::parse::<i32>`.  Rust's parser accepts an optional single `+` (and `-`
for signed types) followed by one or more ASCII digits and fails on overflow;
the checked per-digit accumulation of the standard library is functionally
identical to computing the value and testing it against the type's bounds,
which is how it is written here. -/

def digitChar (d : Nat) : Char := Char.ofNat (48 + d)

/-- Digits of `n`, least significant first; `[]` for `0`.  The first argument
is structural-recursion fuel; `n` itself is always enough fuel because the
value shrinks by a factor of ten each step. -/
def natDigitsRevAux : Nat → Nat → List Char
  | 0, _ => []
  | fuel + 1, n => if n = 0 then [] else digitChar (n % 10) :: natDigitsRevAux fuel (n / 10)

def natDigitsRev (n : Nat) : List Char := natDigitsRevAux n n

def natToString (n : Nat) : String :=
  if n = 0 then "0" else String.mk (natDigitsRev n).reverse

def intToString (i : Int) : String :=
  if i < 0 then "-" ++ natToString i.natAbs else natToString i.toNat

def isDigitChar (c : Char) : Bool := 48 ≤ c.toNat && c.toNat ≤ 57

def digitVal (c : Char) : Nat := c.toNat - 48

def digitsVal (cs : List Char) : Nat := cs.foldl (fun a c => a * 10 + digitVal c) 0

/-- One or more ASCII digits, else failure (no sign handling). -/
def parseDigitsOnly (cs : List Char) : Option Nat :=
  if cs = [] then none
  else if cs.all isDigitChar then some (digitsVal cs) else none

/-- Sign handling shared by Rust's integer `FromStr` implementations:
an optional leading `+` or `-`, then digits; yields (isNegative, magnitude). -/
def parseSignDigits (cs : List Char) : Option (Bool × Nat) :=
  match cs with
  | [] => none
  | c :: rest =>
    if c = '+' then (parseDigitsOnly rest).map (fun v => (false, v))
    else if c = '-' then (parseDigitsOnly rest).map (fun v => (true, v))
    else (parseDigitsOnly (c :: rest)).map (fun v => (false, v))

def parseU64 (s : String) : Option Nat :=
  match parseSignDigits s.data with
  | none => none
  | some (neg, v) =>
    if neg then none
    else if v ≤ 18446744073709551615 then some v else none

def parseI32 (s : String) : Option Int :=
  match parseSignDigits s.data with
  | none => none
  | some (neg, v) =>
    if neg then if v ≤ 2147483648 then some (-(v : Int)) else none
    else if v ≤ 2147483647 then some ((v : Int)) else none

/-- Two's-complement wraparound into the `i32` range, the release-mode
behaviour of Rust integer arithmetic (spec §8: "Overflow behavior follows
signed 32-bit wraparound of the target platform"). -/
def wrap32 (x : Int) : Int := (x + 2147483648) % 4294967296 - 2147483648

def i32add (a b : Int) : Int := wrap32 (a + b)

def i32sub (a b : Int) : Int := wrap32 (a - b)

/-! ### Splitting on `':'`

`splitColon` models `line.split(':').collect::<Vec<&str>>()` from
`levantar_tabla`, working on the character list of the string. -/

def splitChAux (sep : Char) : List Char → List Char → List (List Char)
  | [], acc => [acc.reverse]
  | c :: cs, acc =>
    if c = sep then acc.reverse :: splitChAux sep cs []
    else splitChAux sep cs (c :: acc)

def splitColon (s : String) : List String :=
  (splitChAux ':' s.data []).map String.mk

/-- `Vec` indexing; the Rust source panics out of range, and every use below
is in range on the snapshot writer's output. -/
def idx (l : List String) (i : Nat) : String := l.getD i ""

/-! ### Data model -/

/-- Modelled from the spec: `canal.rs` is not under `src/`.  §3/§4.4: a
Channel is an ordered collection of subscriber handles, each appearing at
most once, identified by the client token; `subscribe` adds a handle if not
present.  A handle is represented by its token (a `Nat`), since handle
equality is by token only (§3, §4.5). -/
structure Canal where
  suscriptores : List Nat
deriving DecidableEq

def Canal.new : Canal := ⟨[]⟩

def Canal.suscribirse (c : Canal) (cliente : Nat) : Canal :=
  if cliente ∈ c.suscriptores then c else ⟨c.suscriptores ++ [cliente]⟩

def Canal.len (c : Canal) : Nat := c.suscriptores.length

/-- Modelled from the spec: `base_de_datos.rs` is not under `src/`.  §3: a
Value is a tagged union `String` / `List` / `Set` / `Channel`; the variants
are exactly those matched in `persistencia.rs` and
`comando_pubsub_handler.rs`.  The `Set` payload (Rust `HashSet<String>`) is
represented as a duplicate-free list in iteration order. -/
inductive TipoRedis where
  | Str (s : String)
  | Lista (l : List String)
  | Set (s : List String)
  | Canal (c : Canal)
deriving DecidableEq

/-- Modelled from the spec: `valor.rs` is not under `src/`.  §3/§4.2: the
envelope wraps a Value with an optional absolute expiration deadline
(`expirable(value, seconds)` stores `now + seconds`; `no_expirable` stores no
deadline). -/
structure Valor where
  contenido : TipoRedis
  vencimiento : Option Nat
deriving DecidableEq

def Valor.no_expirable (t : TipoRedis) : Valor := ⟨t, none⟩

def Valor.expirable (t : TipoRedis) (secs : Nat) (now : Nat) : Valor := ⟨t, some (now + secs)⟩

/-- §3/§4.2: `get()` yields the wrapped Value if not yet expired, otherwise
absent; §8: a key with `EX n` is visible iff less than `n` seconds have
elapsed. -/
def Valor.get (v : Valor) (now : Nat) : Option TipoRedis :=
  match v.vencimiento with
  | none => some v.contenido
  | some d => if now < d then some v.contenido else none

/-- §3: `get_tiempo()` yields the remaining duration if expirable, otherwise
absent (`Duration::as_secs`, whole seconds). -/
def Valor.get_tiempo (v : Valor) (now : Nat) : Option Nat :=
  match v.vencimiento with
  | none => none
  | some d => some (d - now)

/-- Modelled from the spec: the store (`base_de_datos.rs` is not under
`src/`) as an association list; an insert prepends and lookup takes the
first match, so later inserts shadow earlier ones exactly as
`HashMap::insert` does. -/
abbrev BaseDeDatos := List (String × Valor)

def buscar (bdd : BaseDeDatos) (k : String) : Option Valor :=
  match bdd with
  | [] => none
  | (k', v) :: rest => if k' = k then some v else buscar rest k

def insertar (bdd : BaseDeDatos) (k : String) (v : Valor) : BaseDeDatos := (k, v) :: bdd

/-- §4.3 `get`: the wrapped Value if present and not expired, otherwise
absent (lazy eviction of the physical entry is not observable through
lookups and is omitted). -/
def obtener_valor (bdd : BaseDeDatos) (now : Nat) (k : String) : Option TipoRedis :=
  (buscar bdd k).bind (fun v => v.get now)

/-- §4.3 `exists`: Boolean, honouring expiry. -/
def existe_clave (bdd : BaseDeDatos) (now : Nat) (k : String) : Bool :=
  (obtener_valor bdd now k).isSome

/-- The handlers store plain `TipoRedis` values; §4.2: setting a new value
for a key removes the deadline (the handlers' writes are unexpiring). -/
def guardar_valor (bdd : BaseDeDatos) (k : String) (t : TipoRedis) : BaseDeDatos :=
  insertar bdd k (Valor.no_expirable t)

/-- §4.3 `delete`: removes the key. -/
def eliminar_clave (bdd : BaseDeDatos) (k : String) : BaseDeDatos :=
  bdd.filter (fun p => !(p.1 = k))

/-- `ResultadoRedis` from comando.rs (the `Int` payload is the non-negative
`usize` used by the string handlers). -/
inductive ResultadoRedis where
  | StrSimple (s : String)
  | BulkStr (s : String)
  | Int (n : Nat)
  | Vector (v : List ResultadoRedis)
  | Error (s : String)

/-- Modelled from the spec: `comando_info.rs` is not under `src/`.  §3: a
parsed command has a name (uppercased ASCII), an optional first argument
called "key", and a cursor-advanced iterator over the remaining arguments;
each parameter is consumed at most once.  `get_clave` does not consume (the
handlers call it repeatedly, e.g. `getdel` and the `get` it delegates to);
`get_parametro` pops the next not-yet-consumed parameter. -/
structure ComandoInfo where
  nombre : String
  clave : Option String
  parametros : List String

def ComandoInfo.get_nombre (c : ComandoInfo) : String := c.nombre

def ComandoInfo.get_clave (c : ComandoInfo) : Option String := c.clave

def ComandoInfo.get_parametro (c : ComandoInfo) : Option String × ComandoInfo :=
  match c.parametros with
  | [] => (none, c)
  | p :: rest => (some p, { c with parametros := rest })

/-! ### String-family handlers (comando_string_handler.rs)

Each Rust handler takes `&mut ComandoInfo` and the store behind a mutex and
returns a `ResultadoRedis`; here a handler takes the command, the store and
the current time and returns the reply together with the store it leaves
behind. -/

def get (comando : ComandoInfo) (bdd : BaseDeDatos) (now : Nat) : ResultadoRedis :=
  match comando.get_clave with
  | none => .Error "ClaveError no se encontro una clave"
  | some clave =>
    match obtener_valor bdd now clave with
    | some (TipoRedis.Str valor) => .BulkStr valor
    | _ => .Error "GetError error al obtener la clave"

def set (comando : ComandoInfo) (bdd : BaseDeDatos) (now : Nat) :
    ResultadoRedis × BaseDeDatos :=
  match comando.get_clave with
  | none => (.Error "ClaveError no se encontro una clave", bdd)
  | some clave =>
    match (comando.get_parametro).1 with
    | none => (.Error "ParametroError no se envio el parametro", bdd)
    | some parametro => (.StrSimple "OK", guardar_valor bdd clave (.Str parametro))

def append (comando : ComandoInfo) (bdd : BaseDeDatos) (now : Nat) :
    ResultadoRedis × BaseDeDatos :=
  match comando.get_clave with
  | none => (.Error "ClaveError no se encontro una clave", bdd)
  | some clave =>
    match (comando.get_parametro).1 with
    | none => (.Error "ParametroError no se envio el parametro", bdd)
    | some parametro =>
      if existe_clave bdd now clave then
        match get comando bdd now with
        | .BulkStr valor =>
          (.Int (valor ++ parametro).utf8ByteSize,
           guardar_valor bdd clave (.Str (valor ++ parametro)))
        | _ => (.Error "GetError error al obtener la clave", bdd)
      else
        (.Int parametro.utf8ByteSize, guardar_valor bdd clave (.Str parametro))

def getdel (comando : ComandoInfo) (bdd : BaseDeDatos) (now : Nat) :
    ResultadoRedis × BaseDeDatos :=
  match comando.get_clave with
  | none => (.Error "ClaveError no se encontro una clave", bdd)
  | some clave => (get comando bdd now, eliminar_clave bdd clave)

def strlen (comando : ComandoInfo) (bdd : BaseDeDatos) (now : Nat) : ResultadoRedis :=
  match comando.get_clave with
  | none => .Error "ClaveError no se encontro una clave"
  | some clave =>
    match obtener_valor bdd now clave with
    | some (TipoRedis.Str valor) => .Int valor.utf8ByteSize
    | _ => .Error "StrLen error al obtener la clave"

def operar_sobre_int (comando : ComandoInfo) (bdd : BaseDeDatos) (now : Nat)
    (f : Int → Int → Int) : ResultadoRedis × BaseDeDatos :=
  match comando.get_clave with
  | none => (.Error "ClaveError no se encontro una clave", bdd)
  | some clave =>
    let valor : Option String :=
      match obtener_valor bdd now clave with
      | some (TipoRedis.Str valor) => some valor
      | none => some "0"
      | some _ => none
    match valor with
    | none => (.Error "WRONGTYPE", bdd)
    | some valor =>
      match parseI32 valor with
      | none => (.Error "Valor no es un int", bdd)
      | some num =>
        match (comando.get_parametro).1 with
        | none => (.Error "ParametroError no se encontro un parametro", bdd)
        | some param =>
          match parseI32 param with
          | none => (.Error "Parametro no es un int", bdd)
          | some p =>
            let nuevo := f num p
            (.BulkStr (intToString nuevo), guardar_valor bdd clave (.Str (intToString nuevo)))

/-- `decrby`: `operar_sobre_int` with `|a, b| a - b` (i32 arithmetic). -/
def decrby (comando : ComandoInfo) (bdd : BaseDeDatos) (now : Nat) :
    ResultadoRedis × BaseDeDatos :=
  operar_sobre_int comando bdd now i32sub

/-- `incrby`: `operar_sobre_int` with `|a, b| a + b` (i32 arithmetic). -/
def incrby (comando : ComandoInfo) (bdd : BaseDeDatos) (now : Nat) :
    ResultadoRedis × BaseDeDatos :=
  operar_sobre_int comando bdd now i32add

/-! ### Dispatch (comando.rs)

`crear_comando_handler` unconditionally builds a `ComandoStringHandler` (the
family checks are commented out in the source), and
`ComandoStringHandler::new` maps the name `"GET"` to `get` and every other
name to `set`.  `despachar_comando` is `crear_comando_handler` followed by
`ejecutar`. -/

def despachar_comando (comando : ComandoInfo) (bdd : BaseDeDatos) (now : Nat) :
    ResultadoRedis × BaseDeDatos :=
  match comando.get_nombre with
  | "GET" => (get comando bdd now, bdd)
  | _ => set comando bdd now

/-! ### SUBSCRIBE (comando_pubsub_handler.rs)

The source loops `while let Some(clave) = comando.get_parametro()`; the loop
is the structural recursion over the not-yet-consumed parameter list. -/

def subscribe_loop (cliente : Nat) (bdd : BaseDeDatos) (now : Nat)
    (params : List String) (resultado : ResultadoRedis) :
    ResultadoRedis × BaseDeDatos :=
  match params with
  | [] => (resultado, bdd)
  | clave :: rest =>
    let canalOpt : Option Canal :=
      match obtener_valor bdd now clave with
      | some (TipoRedis.Canal c) => some c
      | none => some Canal.new
      | some _ => none
    match canalOpt with
    | none => (.Error "WrongType tipo de dato no es un canal", bdd)
    | some canal =>
      subscribe_loop cliente
        (guardar_valor bdd clave (.Canal (canal.suscribirse cliente)))
        now rest (.Int 1)

def subscribe (comando : ComandoInfo) (cliente : Nat) (bdd : BaseDeDatos) (now : Nat) :
    ResultadoRedis × BaseDeDatos :=
  subscribe_loop cliente bdd now comando.parametros (.Int 0)

/-! ### Client handle (cliente_redis.rs)

The TCP socket is replaced by an oracle describing the outcome of the socket
primitives the embedded methods consult.  `writable` is never consulted by
the source; it is present so that the spec's wording about writability can
be stated. -/

structure SocketState where
  /-- Bytes `peek` would report (`Ok(len)` peeks `min(len, 128) ` bytes). -/
  unread : Nat
  /-- `peek` returns `Err(_)`. -/
  peekErr : Bool
  /-- Whether the socket is writable (not consulted by the source). -/
  writable : Bool
deriving DecidableEq

structure ClienteRedis where
  id : Nat
  canales : Nat
  timeout : Option Nat
  ultimo_mensaje : Nat
  socket : Option SocketState
deriving DecidableEq

/-- `ClienteRedis::new`: a `timeout` argument of `0` becomes `None`, any
other value `t` becomes `Some(Duration::from_secs(t))`;
`ultimo_mensaje = Instant::now()`. -/
def ClienteRedis.new (id : Nat) (timeout : Nat) (stream : SocketState) (now : Nat) :
    ClienteRedis :=
  { id := id
    canales := 0
    timeout := match timeout with
      | 0 => none
      | t => some t
    ultimo_mensaje := now
    socket := some stream }

/-- `esta_conectado`: missing socket is disconnected; otherwise the
connection is alive iff `peek` yields `Ok(len)` with `len != 0`, and — when a
timeout is configured — the elapsed time since `ultimo_mensaje` has not
exceeded it. -/
def ClienteRedis.esta_conectado (c : ClienteRedis) (now : Nat) : Bool :=
  match c.socket with
  | none => false
  | some socket =>
    let conectado := if socket.peekErr then false else socket.unread != 0
    let paso_el_timeout :=
      match c.timeout with
      | some d => decide (now - c.ultimo_mensaje > d)
      | none => false
    conectado && !paso_el_timeout

/-- The connectivity predicate as the spec words it (§4.5): "true iff the
socket has unread bytes OR is writable AND the idle window (`timeout`) has
not elapsed since `ultimo_mensaje`", read as
`(unread ∨ writable) ∧ timeout-ok`, with a missing socket and a peek error
counting as disconnected.  This definition follows the spec's words, to be
compared with `ClienteRedis.esta_conectado`, which follows the source. -/
def ClienteRedis.esta_conectado_spec (c : ClienteRedis) (now : Nat) : Bool :=
  match c.socket with
  | none => false
  | some socket =>
    let conectado :=
      (if socket.peekErr then false else socket.unread != 0) || socket.writable
    let paso_el_timeout :=
      match c.timeout with
      | some d => decide (now - c.ultimo_mensaje > d)
      | none => false
    conectado && !paso_el_timeout

/-! ### Persistence (persistencia.rs) -/

def STRING : String := "STRING"

def LIST : String := "LIST"

def SET : String := "SET"

def EX : String := "EX"

def SEPARADOR : String := ":"

/-- `guardar_clave_valor`: one snapshot line for a key whose envelope
reported `valor = val.get()` and `time = val.get_tiempo()`.  Channels and
expired entries fall into the `_` arm and produce the empty string. -/
def guardar_clave_valor (clave : String) (valor : Option TipoRedis) (time : Option Nat) :
    String :=
  match valor, time with
  | some (TipoRedis.Str v), some duration =>
    STRING ++ SEPARADOR ++ clave ++ SEPARADOR ++ v ++ SEPARADOR ++ EX ++ SEPARADOR
      ++ natToString duration
  | some (TipoRedis.Str v), none =>
    STRING ++ SEPARADOR ++ clave ++ SEPARADOR ++ v
  | some (TipoRedis.Lista lista), some duration =>
    (lista.foldl (fun acc v => acc ++ SEPARADOR ++ v) (LIST ++ SEPARADOR ++ clave))
      ++ SEPARADOR ++ EX ++ SEPARADOR ++ natToString duration
  | some (TipoRedis.Lista lista), none =>
    lista.foldl (fun acc v => acc ++ SEPARADOR ++ v) (LIST ++ SEPARADOR ++ clave)
  | some (TipoRedis.Set s), some duration =>
    (s.foldl (fun acc v => acc ++ SEPARADOR ++ v) (SET ++ SEPARADOR ++ clave))
      ++ SEPARADOR ++ EX ++ SEPARADOR ++ natToString duration
  | some (TipoRedis.Set s), none =>
    s.foldl (fun acc v => acc ++ SEPARADOR ++ v) (SET ++ SEPARADOR ++ clave)
  | _, _ => ""

/-- The serialization loop of the `Info` branch of
`PersistidorHandler::persistir`: one line per entry of the snapshot. -/
def serializar_tabla (tabla : List (String × Valor)) (now : Nat) : List String :=
  tabla.map (fun kv => guardar_clave_valor kv.1 (kv.2.get now) (kv.2.get_tiempo now))

/-- `es_expirable`: `parametros.contains(&"EX")`. -/
def es_expirable (parametros : List String) : Bool := parametros.contains EX

/-- `obtener_tiempo_expiracion`: `parametros.rsplit(|p| p == support).next()`
is the suffix after the last occurrence of `support` (the whole list when
absent), and its first element is parsed as `u64`.  When that suffix is
empty the source panics on `c[0]`; the embedding reads the empty string
there, which fails the parse. -/
def obtener_tiempo_expiracion (parametros : List String) (support : String) : Option Nat :=
  let c := (parametros.reverse.takeWhile (fun p => p != support)).reverse
  parseU64 (idx c 0)

/-- `HashSet::from_iter` on a list of strings: duplicates collapse; the
resulting set is represented in first-insertion order. -/
def hashSetOfList (l : List String) : List String :=
  l.foldl (fun acc x => if x ∈ acc then acc else acc ++ [x]) []

/-- One iteration of the restore loop of `levantar_tabla`: skip empty lines,
split on `':'`, select the variant by `Vec::contains` (checked in the order
STRING, LIST, SET), rebuild the `Valor` (expirable iff the token list
contains `"EX"`) and insert it.  For LIST and SET the source `remove(0)`s the
variant tag and the key and keeps every remaining token — including a
trailing `EX` pair — as payload. -/
def procesar_linea (hashmap : List (String × Valor)) (linea : String) (now : Nat) :
    List (String × Valor) :=
  if linea = "" then hashmap
  else
    let elemento := splitColon linea
    if elemento.contains STRING then
      let valor :=
        if es_expirable elemento then
          Valor.expirable (TipoRedis.Str (idx elemento 2))
            ((obtener_tiempo_expiracion elemento EX).getD 0) now
        else Valor.no_expirable (TipoRedis.Str (idx elemento 2))
      insertar hashmap (idx elemento 1) valor
    else if elemento.contains LIST then
      let resto := elemento.drop 2
      let valor :=
        if es_expirable resto then
          Valor.expirable (TipoRedis.Lista resto)
            ((obtener_tiempo_expiracion resto EX).getD 0) now
        else Valor.no_expirable (TipoRedis.Lista resto)
      insertar hashmap (idx elemento 1) valor
    else if elemento.contains SET then
      let resto := elemento.drop 2
      let valor :=
        if es_expirable resto then
          Valor.expirable (TipoRedis.Set (hashSetOfList resto))
            ((obtener_tiempo_expiracion resto EX).getD 0) now
        else Valor.no_expirable (TipoRedis.Set (hashSetOfList resto))
      insertar hashmap (idx elemento 1) valor
    else hashmap

/-- `levantar_tabla`: fold the restore loop over the lines of the snapshot
file (a missing file yields no lines, hence the empty map). -/
def levantar_tabla (lineas : List String) (now : Nat) : List (String × Valor) :=
  lineas.foldl (fun acc l => procesar_linea acc l now) []

/-! ### The persistence actor loop -/

inductive MensajePersistencia where
  | Info (tabla : List (String × Valor))
  | ArchivoAPersistir (ruta : String)
  | Cerrar

/-- Oracle for one `guardar_en_archivo` call: whether
`OpenOptions::new().write(true).create(true).open(..)` succeeds, and whether
some `writeln!` inside fails. -/
structure ResultadoEscritura where
  openOk : Bool
  falloLinea : Bool

/-- `guardar_en_archivo` returns `Err` exactly when opening the file fails;
a failing `writeln!` is printed with `println!` and otherwise ignored, and
the function still returns `Ok(())`. -/
def guardar_en_archivo (outcome : ResultadoEscritura) : Except Unit Unit :=
  if outcome.openOk then Except.ok () else Except.error ()

/-- A message received by the actor, the instant it is processed, and the
oracle for the file write it may trigger. -/
structure Evento where
  tiempo : Nat
  mensaje : MensajePersistencia
  escritura : ResultadoEscritura

structure EstadoPersistidor where
  archivo : String
  intervalo : Nat
  instante : Nat

/-- A snapshot actually written to disk: the path configured at that moment,
the serialized lines, and the write instant. -/
structure Escritura where
  archivo : String
  lineas : List String
  tiempo : Nat

/-- `PersistidorHandler::persistir`: process messages in order;
`Info` serializes and writes only when `instante.elapsed() >= intervalo`
(resetting `instante` after a successful write), `ArchivoAPersistir`
replaces the path, `Cerrar` and a failing `guardar_en_archivo` end the
loop.  The result is the sequence of snapshots written to disk. -/
def persistir (st : EstadoPersistidor) (eventos : List Evento) : List Escritura :=
  match eventos with
  | [] => []
  | e :: rest =>
    match e.mensaje with
    | .Info tabla =>
      if e.tiempo - st.instante ≥ st.intervalo then
        match guardar_en_archivo e.escritura with
        | .error _ => []
        | .ok _ =>
          ⟨st.archivo, serializar_tabla tabla e.tiempo, e.tiempo⟩ ::
            persistir { st with instante := e.tiempo } rest
      else persistir st rest
    | .ArchivoAPersistir a => persistir { st with archivo := a } rest
    | .Cerrar => []

/-! ### Statement-level definitions -/

/-- The character list obtained by prefixing every token with `':'` and
concatenating — the shape of everything a snapshot line appends after its
first token. -/
def colonTail (ts : List (List Char)) : List Char :=
  (ts.map (fun u => ':' :: u)).flatten

/-- A string that survives the snapshot format: it contains no `':'` (the
separator, an acknowledged limitation of the format, spec §9) and is not one
of the reserved tokens used by the restore parser's `contains` tests. -/
def buenaCadena (s : String) : Prop :=
  ':' ∉ s.data ∧ s ≠ STRING ∧ s ≠ LIST ∧ s ≠ SET ∧ s ≠ EX

/-- A store entry the snapshot format can carry faithfully: key and payload
strings are `buenaCadena`, and a remaining expiration fits in `u64` (as
`Duration::as_secs` guarantees for the real clock). -/
def EntradaBuena (k : String) (v : Valor) (now : Nat) : Prop :=
  buenaCadena k ∧
  (match v.contenido with
   | .Str s => buenaCadena s
   | .Lista l => ∀ e ∈ l, buenaCadena e
   | .Set l => ∀ e ∈ l, buenaCadena e
   | .Canal _ => True) ∧
  ∀ d, v.vencimiento = some d → d - now < 18446744073709551616

/-- What one store entry becomes after a snapshot at time `now` followed by
a restore at the same time: `none` when the line is empty (Channels and
expired entries), otherwise the restored envelope.  Strings survive exactly;
an expirable List or Set additionally keeps the trailing `"EX"` and seconds
tokens as payload elements; a Set is rebuilt through `HashSet::from_iter`. -/
def restaurado (v : Valor) (now : Nat) : Option Valor :=
  match v.get now, v.get_tiempo now with
  | none, _ => none
  | some (TipoRedis.Canal _), _ => none
  | some (TipoRedis.Str s), none => some (Valor.no_expirable (TipoRedis.Str s))
  | some (TipoRedis.Str s), some d => some (Valor.expirable (TipoRedis.Str s) d now)
  | some (TipoRedis.Lista l), none => some (Valor.no_expirable (TipoRedis.Lista l))
  | some (TipoRedis.Lista l), some d =>
    some (Valor.expirable (TipoRedis.Lista (l ++ [EX, natToString d])) d now)
  | some (TipoRedis.Set s), none => some (Valor.no_expirable (TipoRedis.Set (hashSetOfList s)))
  | some (TipoRedis.Set s), some d =>
    some (Valor.expirable (TipoRedis.Set (hashSetOfList (s ++ [EX, natToString d]))) d now)

/-- A key the SUBSCRIBE loop accepts: absent (a fresh Channel is created) or
already holding a Channel. -/
def clave_suscribible (bdd : BaseDeDatos) (now : Nat) (k : String) : Bool :=
  match obtener_valor bdd now k with
  | some (TipoRedis.Canal _) => true
  | none => true
  | some _ => false

/-- The timing discipline of the persistence actor's write trace: each
recorded write happened at least `intervalo` after the previous recorded
write (or after the actor's start instant for the first one). -/
def escriturasEspaciadas (intervalo : Nat) : Nat → List Escritura → Prop
  | _, [] => True
  | ultimo, w :: ws => w.tiempo - ultimo ≥ intervalo ∧ escriturasEspaciadas intervalo w.tiempo ws

/-! ## Theorems

### Decimal rendering round-trips -/

theorem natDigitsRevAux_congr :
    ∀ f g n, n ≤ f → n ≤ g → natDigitsRevAux f n = natDigitsRevAux g n := by
  intro f
  induction f with
  | zero =>
    intro g n hf hg
    interval_cases n
    cases g <;> simp [natDigitsRevAux]
  | succ f ih =>
    intro g n hf hg
    match g, n with
    | g, 0 => cases g <;> simp [natDigitsRevAux]
    | 0, n + 1 => omega
    | g + 1, n + 1 =>
      simp only [natDigitsRevAux, if_neg (Nat.succ_ne_zero n)]
      have h1 : (n + 1) / 10 < n + 1 := Nat.div_lt_self (Nat.succ_pos n) (by decide)
      rw [ih g ((n + 1) / 10) (by omega) (by omega)]

theorem natDigitsRev_eq (n : Nat) :
    natDigitsRev n = if n = 0 then [] else digitChar (n % 10) :: natDigitsRev (n / 10) := by
  by_cases h : n = 0
  · subst h; rfl
  · obtain ⟨m, rfl⟩ : ∃ m, n = m + 1 := ⟨n - 1, by omega⟩
    rw [if_neg h]
    show natDigitsRevAux (m + 1) (m + 1) = _
    simp only [natDigitsRevAux, if_neg h]
    have h1 : (m + 1) / 10 < m + 1 := Nat.div_lt_self (Nat.succ_pos m) (by decide)
    rw [natDigitsRevAux_congr m ((m + 1) / 10) ((m + 1) / 10) (by omega) le_rfl]
    rfl

theorem digitVal_digitChar (d : Nat) (h : d < 10) : digitVal (digitChar d) = d := by
  interval_cases d <;> rfl

theorem isDigitChar_digitChar (d : Nat) (h : d < 10) : isDigitChar (digitChar d) = true := by
  interval_cases d <;> rfl

theorem digitsVal_append (cs : List Char) (c : Char) :
    digitsVal (cs ++ [c]) = digitsVal cs * 10 + digitVal c := by
  simp [digitsVal, List.foldl_append]

theorem digitsVal_reverse_natDigitsRev (n : Nat) :
    digitsVal (natDigitsRev n).reverse = n := by
  induction n using Nat.strong_induction_on with
  | _ n ih =>
    rw [natDigitsRev_eq]
    by_cases h : n = 0
    · subst h; rfl
    · rw [if_neg h]
      rw [List.reverse_cons, digitsVal_append,
        ih (n / 10) (Nat.div_lt_self (by omega) (by decide)),
        digitVal_digitChar _ (Nat.mod_lt n (by decide))]
      omega

theorem mem_natDigitsRev_isDigit (n : Nat) :
    ∀ c ∈ natDigitsRev n, isDigitChar c = true := by
  induction n using Nat.strong_induction_on with
  | _ n ih =>
    rw [natDigitsRev_eq]
    by_cases h : n = 0
    · simp [h]
    · rw [if_neg h]
      intro c hc
      rcases List.mem_cons.mp hc with hc | hc
      · subst hc; exact isDigitChar_digitChar _ (Nat.mod_lt n (by decide))
      · exact ih (n / 10) (Nat.div_lt_self (by omega) (by decide)) c hc

theorem natDigitsRev_ne_nil (n : Nat) (h : n ≠ 0) : natDigitsRev n ≠ [] := by
  rw [natDigitsRev_eq]; simp [h]

theorem natToString_data (n : Nat) :
    (natToString n).data = if n = 0 then ['0'] else (natDigitsRev n).reverse := by
  unfold natToString
  by_cases h : n = 0 <;> simp [h]

theorem natToString_all_digits (n : Nat) :
    ∀ c ∈ (natToString n).data, isDigitChar c = true := by
  rw [natToString_data]
  by_cases h : n = 0
  · rw [if_pos h]; intro c hc; simp at hc; subst hc; rfl
  · rw [if_neg h]; intro c hc
    exact mem_natDigitsRev_isDigit n c (List.mem_reverse.mp hc)

theorem natToString_data_ne_nil (n : Nat) : (natToString n).data ≠ [] := by
  rw [natToString_data]
  by_cases h : n = 0
  · simp [h]
  · rw [if_neg h]
    simpa [List.reverse_eq_nil_iff] using natDigitsRev_ne_nil n h

theorem digitsVal_natToString (n : Nat) : digitsVal (natToString n).data = n := by
  rw [natToString_data]
  by_cases h : n = 0
  · subst h; rfl
  · rw [if_neg h]; exact digitsVal_reverse_natDigitsRev n

theorem parseDigitsOnly_natToString (n : Nat) :
    parseDigitsOnly (natToString n).data = some n := by
  unfold parseDigitsOnly
  rw [if_neg (natToString_data_ne_nil n),
    if_pos (List.all_eq_true.mpr (natToString_all_digits n)), digitsVal_natToString]

theorem parseSignDigits_cons (c : Char) (rest : List Char) :
    parseSignDigits (c :: rest) =
      if c = '+' then (parseDigitsOnly rest).map (fun v => (false, v))
      else if c = '-' then (parseDigitsOnly rest).map (fun v => (true, v))
      else (parseDigitsOnly (c :: rest)).map (fun v => (false, v)) := rfl

theorem parseSignDigits_natToString (n : Nat) :
    parseSignDigits (natToString n).data = some (false, n) := by
  obtain ⟨c, cs, hdata⟩ : ∃ c cs, (natToString n).data = c :: cs := by
    cases hd : (natToString n).data with
    | nil => exact absurd hd (natToString_data_ne_nil n)
    | cons c cs => exact ⟨c, cs, rfl⟩
  have hc : isDigitChar c = true :=
    natToString_all_digits n c (by rw [hdata]; exact List.mem_cons_self c cs)
  have hplus : c ≠ '+' := by intro he; subst he; exact absurd hc (by decide)
  have hminus : c ≠ '-' := by intro he; subst he; exact absurd hc (by decide)
  rw [hdata, parseSignDigits_cons, if_neg hplus, if_neg hminus, ← hdata,
    parseDigitsOnly_natToString]
  rfl

theorem parseU64_natToString (n : Nat) (h : n < 18446744073709551616) :
    parseU64 (natToString n) = some n := by
  simp only [parseU64, parseSignDigits_natToString]
  simp [show n ≤ 18446744073709551615 by omega]

theorem parseI32_intToString (a : Int) (h1 : -2147483648 ≤ a) (h2 : a ≤ 2147483647) :
    parseI32 (intToString a) = some a := by
  unfold intToString
  by_cases hneg : a < 0
  · rw [if_pos hneg]
    have hps : parseSignDigits ("-" ++ natToString a.natAbs).data = some (true, a.natAbs) := by
      rw [show ("-" ++ natToString a.natAbs).data = '-' :: (natToString a.natAbs).data from by
        rw [String.data_append]; rfl]
      rw [parseSignDigits_cons, if_neg (by decide), if_pos rfl, parseDigitsOnly_natToString]
      rfl
    simp only [parseI32, hps]
    have hv : a.natAbs ≤ 2147483648 := by omega
    simp only [if_pos rfl, if_pos hv]
    rw [Int.ofNat_natAbs_of_nonpos (le_of_lt hneg), neg_neg]
    simp
  · rw [if_neg hneg]
    simp only [parseI32, parseSignDigits_natToString]
    have hv : a.toNat ≤ 2147483647 := by omega
    simp only [Bool.false_eq_true, if_false, if_pos hv]
    congr 1
    omega

theorem wrap32_eq_of_range (x : Int) (h1 : -2147483648 ≤ x) (h2 : x < 2147483648) :
    wrap32 x = x := by
  unfold wrap32
  rw [Int.emod_eq_of_lt (by omega) (by omega)]
  omega

/-! ### Splitting a joined line recovers the tokens -/

theorem splitChAux_sep_token (t : List Char) (h : ':' ∉ t) :
    ∀ rest acc, splitChAux ':' (t ++ ':' :: rest) acc
      = (acc.reverse ++ t) :: splitChAux ':' rest [] := by
  induction t with
  | nil => intro rest acc; simp [splitChAux]
  | cons c cs ih =>
    intro rest acc
    have hc : ¬(c = ':') := fun he => h (he ▸ List.mem_cons_self c cs)
    have hcs : ':' ∉ cs := fun hm => h (List.mem_cons_of_mem c hm)
    simp only [List.cons_append, List.append_eq, splitChAux, if_neg hc]
    rw [ih hcs rest (c :: acc)]
    simp

theorem splitChAux_no_sep (t : List Char) (h : ':' ∉ t) :
    ∀ acc, splitChAux ':' t acc = [acc.reverse ++ t] := by
  induction t with
  | nil => intro acc; simp [splitChAux]
  | cons c cs ih =>
    intro acc
    have hc : ¬(c = ':') := fun he => h (he ▸ List.mem_cons_self c cs)
    have hcs : ':' ∉ cs := fun hm => h (List.mem_cons_of_mem c hm)
    simp only [splitChAux, if_neg hc]
    rw [ih hcs (c :: acc)]
    simp

theorem splitChAux_colonTail (ts : List (List Char)) :
    ∀ t, ':' ∉ t → (∀ u ∈ ts, ':' ∉ u) →
    ∀ acc, splitChAux ':' (t ++ colonTail ts) acc = (acc.reverse ++ t) :: ts := by
  induction ts with
  | nil =>
    intro t ht _ acc
    simpa [colonTail] using splitChAux_no_sep t ht acc
  | cons u us ih =>
    intro t ht hts acc
    have hcolon : colonTail (u :: us) = ':' :: (u ++ colonTail us) := by
      simp [colonTail]
    rw [hcolon, splitChAux_sep_token t ht _ acc]
    have := ih u (hts u (List.mem_cons_self u us))
      (fun x hx => hts x (List.mem_cons_of_mem u hx)) []
    rw [this]
    simp

theorem mk_data (s : String) : String.mk s.data = s := rfl

theorem map_mk_map_data (l : List String) : (l.map String.data).map String.mk = l := by
  induction l with
  | nil => rfl
  | cons x xs ih => simp [ih, mk_data]

/-- Splitting a line made of colon-free tokens joined by `':'` recovers the
tokens. -/
theorem splitColon_tokens (s : String) (t : String) (ts : List String)
    (ht : ':' ∉ t.data) (hts : ∀ u ∈ ts, ':' ∉ u.data)
    (hdata : s.data = t.data ++ colonTail (ts.map String.data)) :
    splitColon s = t :: ts := by
  unfold splitColon
  rw [hdata, splitChAux_colonTail (ts.map String.data) t.data ht
    (by intro u hu; rcases List.mem_map.mp hu with ⟨x, hx, rfl⟩; exact hts x hx) []]
  simp only [List.reverse_nil, List.nil_append, List.map_cons, mk_data, map_mk_map_data]

theorem sep_data : SEPARADOR.data = [':'] := rfl

/-- The accumulating `+= ":" + valor` loop of the snapshot writer, at the
character level. -/
theorem foldl_sep_data (l : List String) :
    ∀ base : String, (l.foldl (fun acc v => acc ++ SEPARADOR ++ v) base).data
      = base.data ++ colonTail (l.map String.data) := by
  induction l with
  | nil => intro base; simp [colonTail]
  | cons v vs ih =>
    intro base
    simp only [List.foldl_cons]
    rw [ih (base ++ SEPARADOR ++ v)]
    simp [String.data_append, sep_data, colonTail]

/-! ### Store lookup lemmas -/

theorem buscar_insertar (bdd : BaseDeDatos) (k k' : String) (v : Valor) :
    buscar (insertar bdd k v) k' = if k = k' then some v else buscar bdd k' := rfl

theorem buscar_append (A B : BaseDeDatos) (k : String) :
    buscar (A ++ B) k = ((buscar A k).map some).getD (buscar B k) := by
  induction A with
  | nil => simp [buscar]
  | cons p rest ih =>
    obtain ⟨k', v⟩ := p
    by_cases h : k' = k <;> simp [buscar, h, ih]

theorem buscar_eliminar (bdd : BaseDeDatos) (k : String) :
    buscar (eliminar_clave bdd k) k = none := by
  induction bdd with
  | nil => rfl
  | cons p rest ih =>
    obtain ⟨k', v⟩ := p
    by_cases h : k' = k
    · simpa [eliminar_clave, h] using ih
    · simpa [eliminar_clave, buscar, h] using ih

theorem obtener_valor_guardar_mismo (bdd : BaseDeDatos) (now : Nat) (k : String)
    (t : TipoRedis) : obtener_valor (guardar_valor bdd k t) now k = some t := by
  simp [obtener_valor, guardar_valor, buscar_insertar, Valor.get, Valor.no_expirable]

theorem obtener_valor_guardar_otro (bdd : BaseDeDatos) (now : Nat) (k k' : String)
    (t : TipoRedis) (h : k ≠ k') :
    obtener_valor (guardar_valor bdd k t) now k' = obtener_valor bdd now k' := by
  simp [obtener_valor, guardar_valor, buscar_insertar, h]

/-! ### Facts about the reserved snapshot tokens -/

theorem STRING_data : STRING.data = ['S', 'T', 'R', 'I', 'N', 'G'] := rfl

theorem LIST_data : LIST.data = ['L', 'I', 'S', 'T'] := rfl

theorem SET_data : SET.data = ['S', 'E', 'T'] := rfl

theorem EX_data : EX.data = ['E', 'X'] := rfl

theorem buenaCadena_natToString (n : Nat) : buenaCadena (natToString n) := by
  have hall := natToString_all_digits n
  refine ⟨fun hc => absurd (hall ':' hc) (by decide), ?_, ?_, ?_, ?_⟩ <;> intro he <;>
    rw [he] at hall
  · exact absurd (hall 'S' (by decide)) (by decide)
  · exact absurd (hall 'L' (by decide)) (by decide)
  · exact absurd (hall 'S' (by decide)) (by decide)
  · exact absurd (hall 'E' (by decide)) (by decide)

theorem es_expirable_true (l : List String) (h : EX ∈ l) : es_expirable l = true := by
  simp [es_expirable, h]

theorem es_expirable_false (l : List String) (h : EX ∉ l) : es_expirable l = false := by
  simp [es_expirable, h]

/-- The `rsplit(..).next()` step of `obtener_tiempo_expiracion` on a token
list ending in the `EX` pair recovers the seconds. -/
theorem obtener_tiempo_trailing (pre : List String) (secs : Nat)
    (hsecs : secs < 18446744073709551616) :
    obtener_tiempo_expiracion (pre ++ [EX, natToString secs]) EX = some secs := by
  unfold obtener_tiempo_expiracion
  have h1 : (pre ++ [EX, natToString secs]).reverse
      = natToString secs :: EX :: pre.reverse := by simp
  have hne : (natToString secs != EX) = true := by
    simpa [bne_iff_ne] using (buenaCadena_natToString secs).2.2.2.2
  rw [h1]
  simp [List.takeWhile_cons, hne, idx]
  exact parseU64_natToString secs hsecs

/-! ### Restoring a single snapshot line -/

theorem procesar_str_none (acc : List (String × Valor)) (k v : String) (now : Nat)
    (hk : buenaCadena k) (hv : buenaCadena v) :
    procesar_linea acc (guardar_clave_valor k (some (.Str v)) none) now
      = insertar acc k (Valor.no_expirable (.Str v)) := by
  have hline : guardar_clave_valor k (some (.Str v)) none
      = STRING ++ SEPARADOR ++ k ++ SEPARADOR ++ v := rfl
  have hdata : (STRING ++ SEPARADOR ++ k ++ SEPARADOR ++ v).data
      = STRING.data ++ colonTail ([k, v].map String.data) := by
    simp [String.data_append, sep_data, colonTail]
  have hsplit : splitColon (STRING ++ SEPARADOR ++ k ++ SEPARADOR ++ v) = [STRING, k, v] := by
    refine splitColon_tokens _ STRING [k, v] (by rw [STRING_data]; decide) ?_ hdata
    intro u hu
    simp at hu
    rcases hu with rfl | rfl
    · exact hk.1
    · exact hv.1
  have hne : (STRING ++ SEPARADOR ++ k ++ SEPARADOR ++ v) ≠ "" := by
    intro he
    have h2 := congrArg String.data he
    rw [hdata, STRING_data] at h2
    simp at h2
  have hnotex : EX ∉ [STRING, k, v] := by
    intro h
    rcases List.mem_cons.mp h with h | h
    · exact absurd h (by decide)
    rcases List.mem_cons.mp h with h | h
    · exact hk.2.2.2.2 h.symm
    rcases List.mem_cons.mp h with h | h
    · exact hv.2.2.2.2 h.symm
    · simp at h
  have hexp := es_expirable_false _ hnotex
  have hcont : ([STRING, k, v].contains STRING) = true := by simp
  rw [hline]
  simp only [procesar_linea, if_neg hne, hsplit, hexp, hcont, if_true, Bool.false_eq_true,
    if_false, idx]
  rfl

theorem procesar_str_ex (acc : List (String × Valor)) (k v : String) (secs now : Nat)
    (hk : buenaCadena k) (hv : buenaCadena v) (hsecs : secs < 18446744073709551616) :
    procesar_linea acc (guardar_clave_valor k (some (.Str v)) (some secs)) now
      = insertar acc k (Valor.expirable (.Str v) secs now) := by
  have hline : guardar_clave_valor k (some (.Str v)) (some secs)
      = STRING ++ SEPARADOR ++ k ++ SEPARADOR ++ v ++ SEPARADOR ++ EX ++ SEPARADOR
          ++ natToString secs := rfl
  have hnum := buenaCadena_natToString secs
  have hdata : (STRING ++ SEPARADOR ++ k ++ SEPARADOR ++ v ++ SEPARADOR ++ EX ++ SEPARADOR
      ++ natToString secs).data
      = STRING.data ++ colonTail ([k, v, EX, natToString secs].map String.data) := by
    simp [String.data_append, sep_data, colonTail]
  have hsplit : splitColon (STRING ++ SEPARADOR ++ k ++ SEPARADOR ++ v ++ SEPARADOR ++ EX
      ++ SEPARADOR ++ natToString secs) = [STRING, k, v, EX, natToString secs] := by
    refine splitColon_tokens _ STRING [k, v, EX, natToString secs]
      (by rw [STRING_data]; decide) ?_ hdata
    intro u hu
    simp at hu
    rcases hu with rfl | rfl | rfl | rfl
    · exact hk.1
    · exact hv.1
    · rw [EX_data]; decide
    · exact hnum.1
  have hne : (STRING ++ SEPARADOR ++ k ++ SEPARADOR ++ v ++ SEPARADOR ++ EX ++ SEPARADOR
      ++ natToString secs) ≠ "" := by
    intro he
    have h2 := congrArg String.data he
    rw [hdata, STRING_data] at h2
    simp at h2
  have hexp : es_expirable [STRING, k, v, EX, natToString secs] = true :=
    es_expirable_true _ (by simp)
  have htiempo : obtener_tiempo_expiracion [STRING, k, v, EX, natToString secs] EX
      = some secs := obtener_tiempo_trailing [STRING, k, v] secs hsecs
  have hcont : ([STRING, k, v, EX, natToString secs].contains STRING) = true := by simp
  rw [hline]
  simp only [procesar_linea, if_neg hne, hsplit, hexp, hcont, htiempo, if_true, idx]
  rfl

theorem procesar_lista_none (acc : List (String × Valor)) (k : String) (elems : List String)
    (now : Nat) (hk : buenaCadena k) (helems : ∀ e ∈ elems, buenaCadena e) :
    procesar_linea acc (guardar_clave_valor k (some (.Lista elems)) none) now
      = insertar acc k (Valor.no_expirable (.Lista elems)) := by
  have hline : guardar_clave_valor k (some (.Lista elems)) none
      = elems.foldl (fun acc v => acc ++ SEPARADOR ++ v) (LIST ++ SEPARADOR ++ k) := rfl
  have hdata : (elems.foldl (fun acc v => acc ++ SEPARADOR ++ v) (LIST ++ SEPARADOR ++ k)).data
      = LIST.data ++ colonTail ((k :: elems).map String.data) := by
    rw [foldl_sep_data]
    simp [String.data_append, sep_data, colonTail]
  have hsplit : splitColon (elems.foldl (fun acc v => acc ++ SEPARADOR ++ v)
      (LIST ++ SEPARADOR ++ k)) = LIST :: k :: elems := by
    refine splitColon_tokens _ LIST (k :: elems) (by rw [LIST_data]; decide) ?_ hdata
    intro u hu
    rcases List.mem_cons.mp hu with rfl | hu
    · exact hk.1
    · exact (helems u hu).1
  have hne : elems.foldl (fun acc v => acc ++ SEPARADOR ++ v) (LIST ++ SEPARADOR ++ k)
      ≠ "" := by
    intro he
    have h2 := congrArg String.data he
    rw [hdata, LIST_data] at h2
    simp at h2
  have hnotstr : STRING ∉ LIST :: k :: elems := by
    intro h
    rcases List.mem_cons.mp h with h | h
    · exact absurd h (by decide)
    rcases List.mem_cons.mp h with h | h
    · exact hk.2.1 h.symm
    · exact (helems STRING h).2.1 rfl
  have hcontstr : ((LIST :: k :: elems).contains STRING) = false := by
    simpa using hnotstr
  have hcontlist : ((LIST :: k :: elems).contains LIST) = true := by simp
  have hnotex : EX ∉ elems := fun h => (helems EX h).2.2.2.2 rfl
  have hexp : es_expirable ((LIST :: k :: elems).drop 2) = false :=
    es_expirable_false _ hnotex
  rw [hline]
  simp only [procesar_linea, if_neg hne, hsplit, hcontstr, hcontlist, hexp, if_true,
    Bool.false_eq_true, if_false, idx]
  rfl

theorem procesar_lista_ex (acc : List (String × Valor)) (k : String) (elems : List String)
    (secs now : Nat) (hk : buenaCadena k) (helems : ∀ e ∈ elems, buenaCadena e)
    (hsecs : secs < 18446744073709551616) :
    procesar_linea acc (guardar_clave_valor k (some (.Lista elems)) (some secs)) now
      = insertar acc k
          (Valor.expirable (.Lista (elems ++ [EX, natToString secs])) secs now) := by
  have hnum := buenaCadena_natToString secs
  have hline : guardar_clave_valor k (some (.Lista elems)) (some secs)
      = elems.foldl (fun acc v => acc ++ SEPARADOR ++ v) (LIST ++ SEPARADOR ++ k)
          ++ SEPARADOR ++ EX ++ SEPARADOR ++ natToString secs := rfl
  have hdata : (elems.foldl (fun acc v => acc ++ SEPARADOR ++ v) (LIST ++ SEPARADOR ++ k)
      ++ SEPARADOR ++ EX ++ SEPARADOR ++ natToString secs).data
      = LIST.data ++ colonTail ((k :: (elems ++ [EX, natToString secs])).map String.data) := by
    simp only [String.data_append, foldl_sep_data]
    simp [String.data_append, sep_data, colonTail]
  have hsplit : splitColon (elems.foldl (fun acc v => acc ++ SEPARADOR ++ v)
      (LIST ++ SEPARADOR ++ k) ++ SEPARADOR ++ EX ++ SEPARADOR ++ natToString secs)
      = LIST :: k :: (elems ++ [EX, natToString secs]) := by
    refine splitColon_tokens _ LIST (k :: (elems ++ [EX, natToString secs]))
      (by rw [LIST_data]; decide) ?_ hdata
    intro u hu
    rcases List.mem_cons.mp hu with rfl | hu
    · exact hk.1
    rcases List.mem_append.mp hu with hu | hu
    · exact (helems u hu).1
    · rcases List.mem_cons.mp hu with rfl | hu
      · rw [EX_data]; decide
      · simp at hu
        subst hu
        exact hnum.1
  have hne : elems.foldl (fun acc v => acc ++ SEPARADOR ++ v) (LIST ++ SEPARADOR ++ k)
      ++ SEPARADOR ++ EX ++ SEPARADOR ++ natToString secs ≠ "" := by
    intro he
    have h2 := congrArg String.data he
    rw [hdata, LIST_data] at h2
    simp at h2
  have hnotstr : STRING ∉ LIST :: k :: (elems ++ [EX, natToString secs]) := by
    intro h
    rcases List.mem_cons.mp h with h | h
    · exact absurd h (by decide)
    rcases List.mem_cons.mp h with h | h
    · exact hk.2.1 h.symm
    rcases List.mem_append.mp h with h | h
    · exact (helems STRING h).2.1 rfl
    rcases List.mem_cons.mp h with h | h
    · exact absurd h.symm (by decide)
    · simp at h
      exact hnum.2.1 h.symm
  have hcontstr : ((LIST :: k :: (elems ++ [EX, natToString secs])).contains STRING)
      = false := by simpa using hnotstr
  have hcontlist : ((LIST :: k :: (elems ++ [EX, natToString secs])).contains LIST)
      = true := by simp
  have hexp : es_expirable ((LIST :: k :: (elems ++ [EX, natToString secs])).drop 2)
      = true := es_expirable_true _ (by simp)
  have htiempo : obtener_tiempo_expiracion
      ((LIST :: k :: (elems ++ [EX, natToString secs])).drop 2) EX = some secs := by
    simpa using obtener_tiempo_trailing elems secs hsecs
  rw [hline]
  simp only [procesar_linea, if_neg hne, hsplit, hcontstr, hcontlist, hexp, htiempo, if_true,
    Bool.false_eq_true, if_false, idx]
  rfl

theorem procesar_set_none (acc : List (String × Valor)) (k : String) (elems : List String)
    (now : Nat) (hk : buenaCadena k) (helems : ∀ e ∈ elems, buenaCadena e) :
    procesar_linea acc (guardar_clave_valor k (some (.Set elems)) none) now
      = insertar acc k (Valor.no_expirable (.Set (hashSetOfList elems))) := by
  have hline : guardar_clave_valor k (some (.Set elems)) none
      = elems.foldl (fun acc v => acc ++ SEPARADOR ++ v) (SET ++ SEPARADOR ++ k) := rfl
  have hdata : (elems.foldl (fun acc v => acc ++ SEPARADOR ++ v) (SET ++ SEPARADOR ++ k)).data
      = SET.data ++ colonTail ((k :: elems).map String.data) := by
    rw [foldl_sep_data]
    simp [String.data_append, sep_data, colonTail]
  have hsplit : splitColon (elems.foldl (fun acc v => acc ++ SEPARADOR ++ v)
      (SET ++ SEPARADOR ++ k)) = SET :: k :: elems := by
    refine splitColon_tokens _ SET (k :: elems) (by rw [SET_data]; decide) ?_ hdata
    intro u hu
    rcases List.mem_cons.mp hu with rfl | hu
    · exact hk.1
    · exact (helems u hu).1
  have hne : elems.foldl (fun acc v => acc ++ SEPARADOR ++ v) (SET ++ SEPARADOR ++ k)
      ≠ "" := by
    intro he
    have h2 := congrArg String.data he
    rw [hdata, SET_data] at h2
    simp at h2
  have hnotstr : STRING ∉ SET :: k :: elems := by
    intro h
    rcases List.mem_cons.mp h with h | h
    · exact absurd h (by decide)
    rcases List.mem_cons.mp h with h | h
    · exact hk.2.1 h.symm
    · exact (helems STRING h).2.1 rfl
  have hnotlist : LIST ∉ SET :: k :: elems := by
    intro h
    rcases List.mem_cons.mp h with h | h
    · exact absurd h (by decide)
    rcases List.mem_cons.mp h with h | h
    · exact hk.2.2.1 h.symm
    · exact (helems LIST h).2.2.1 rfl
  have hcontstr : ((SET :: k :: elems).contains STRING) = false := by simpa using hnotstr
  have hcontlist : ((SET :: k :: elems).contains LIST) = false := by simpa using hnotlist
  have hcontset : ((SET :: k :: elems).contains SET) = true := by simp
  have hnotex : EX ∉ elems := fun h => (helems EX h).2.2.2.2 rfl
  have hexp : es_expirable ((SET :: k :: elems).drop 2) = false :=
    es_expirable_false _ hnotex
  rw [hline]
  simp only [procesar_linea, if_neg hne, hsplit, hcontstr, hcontlist, hcontset, hexp, if_true,
    Bool.false_eq_true, if_false, idx]
  rfl

theorem procesar_set_ex (acc : List (String × Valor)) (k : String) (elems : List String)
    (secs now : Nat) (hk : buenaCadena k) (helems : ∀ e ∈ elems, buenaCadena e)
    (hsecs : secs < 18446744073709551616) :
    procesar_linea acc (guardar_clave_valor k (some (.Set elems)) (some secs)) now
      = insertar acc k
          (Valor.expirable (.Set (hashSetOfList (elems ++ [EX, natToString secs])))
            secs now) := by
  have hnum := buenaCadena_natToString secs
  have hline : guardar_clave_valor k (some (.Set elems)) (some secs)
      = elems.foldl (fun acc v => acc ++ SEPARADOR ++ v) (SET ++ SEPARADOR ++ k)
          ++ SEPARADOR ++ EX ++ SEPARADOR ++ natToString secs := rfl
  have hdata : (elems.foldl (fun acc v => acc ++ SEPARADOR ++ v) (SET ++ SEPARADOR ++ k)
      ++ SEPARADOR ++ EX ++ SEPARADOR ++ natToString secs).data
      = SET.data ++ colonTail ((k :: (elems ++ [EX, natToString secs])).map String.data) := by
    simp only [String.data_append, foldl_sep_data]
    simp [String.data_append, sep_data, colonTail]
  have hsplit : splitColon (elems.foldl (fun acc v => acc ++ SEPARADOR ++ v)
      (SET ++ SEPARADOR ++ k) ++ SEPARADOR ++ EX ++ SEPARADOR ++ natToString secs)
      = SET :: k :: (elems ++ [EX, natToString secs]) := by
    refine splitColon_tokens _ SET (k :: (elems ++ [EX, natToString secs]))
      (by rw [SET_data]; decide) ?_ hdata
    intro u hu
    rcases List.mem_cons.mp hu with rfl | hu
    · exact hk.1
    rcases List.mem_append.mp hu with hu | hu
    · exact (helems u hu).1
    · rcases List.mem_cons.mp hu with rfl | hu
      · rw [EX_data]; decide
      · simp at hu
        subst hu
        exact hnum.1
  have hne : elems.foldl (fun acc v => acc ++ SEPARADOR ++ v) (SET ++ SEPARADOR ++ k)
      ++ SEPARADOR ++ EX ++ SEPARADOR ++ natToString secs ≠ "" := by
    intro he
    have h2 := congrArg String.data he
    rw [hdata, SET_data] at h2
    simp at h2
  have hnotstr : STRING ∉ SET :: k :: (elems ++ [EX, natToString secs]) := by
    intro h
    rcases List.mem_cons.mp h with h | h
    · exact absurd h (by decide)
    rcases List.mem_cons.mp h with h | h
    · exact hk.2.1 h.symm
    rcases List.mem_append.mp h with h | h
    · exact (helems STRING h).2.1 rfl
    rcases List.mem_cons.mp h with h | h
    · exact absurd h.symm (by decide)
    · simp at h
      exact hnum.2.1 h.symm
  have hnotlist : LIST ∉ SET :: k :: (elems ++ [EX, natToString secs]) := by
    intro h
    rcases List.mem_cons.mp h with h | h
    · exact absurd h (by decide)
    rcases List.mem_cons.mp h with h | h
    · exact hk.2.2.1 h.symm
    rcases List.mem_append.mp h with h | h
    · exact (helems LIST h).2.2.1 rfl
    rcases List.mem_cons.mp h with h | h
    · exact absurd h.symm (by decide)
    · simp at h
      exact hnum.2.2.1 h.symm
  have hcontstr : ((SET :: k :: (elems ++ [EX, natToString secs])).contains STRING)
      = false := by simpa using hnotstr
  have hcontlist : ((SET :: k :: (elems ++ [EX, natToString secs])).contains LIST)
      = false := by simpa using hnotlist
  have hcontset : ((SET :: k :: (elems ++ [EX, natToString secs])).contains SET)
      = true := by simp
  have hexp : es_expirable ((SET :: k :: (elems ++ [EX, natToString secs])).drop 2)
      = true := es_expirable_true _ (by simp)
  have htiempo : obtener_tiempo_expiracion
      ((SET :: k :: (elems ++ [EX, natToString secs])).drop 2) EX = some secs := by
    simpa using obtener_tiempo_trailing elems secs hsecs
  rw [hline]
  simp only [procesar_linea, if_neg hne, hsplit, hcontstr, hcontlist, hcontset, hexp, htiempo,
    if_true, Bool.false_eq_true, if_false, idx]
  rfl

/-- Restoring the snapshot line of a single well-formed entry inserts
exactly what `restaurado` predicts (or touches nothing when the line is
empty). -/
theorem procesar_linea_guardar (acc : List (String × Valor)) (k : String) (v : Valor)
    (now : Nat) (h : EntradaBuena k v now) :
    procesar_linea acc (guardar_clave_valor k (v.get now) (v.get_tiempo now)) now
      = match restaurado v now with
        | none => acc
        | some v' => insertar acc k v' := by
  obtain ⟨hk, hcont, hsecs⟩ := h
  obtain ⟨t, dOpt⟩ := v
  cases dOpt with
  | none =>
    cases t with
    | Str s =>
      simpa [restaurado, Valor.get, Valor.get_tiempo] using
        procesar_str_none acc k s now hk hcont
    | Lista l =>
      simpa [restaurado, Valor.get, Valor.get_tiempo] using
        procesar_lista_none acc k l now hk hcont
    | Set l =>
      simpa [restaurado, Valor.get, Valor.get_tiempo] using
        procesar_set_none acc k l now hk hcont
    | Canal c => rfl
  | some d =>
    by_cases hd : now < d
    · have hget : Valor.get ⟨t, some d⟩ now = some t := by simp [Valor.get, hd]
      have htiempo : Valor.get_tiempo ⟨t, some d⟩ now = some (d - now) := rfl
      have hsec : d - now < 18446744073709551616 := hsecs d rfl
      cases t with
      | Str s =>
        rw [hget, htiempo, procesar_str_ex acc k s (d - now) now hk hcont hsec]
        simp [restaurado, Valor.get, hd, Valor.get_tiempo]
      | Lista l =>
        rw [hget, htiempo, procesar_lista_ex acc k l (d - now) now hk hcont hsec]
        simp [restaurado, Valor.get, hd, Valor.get_tiempo]
      | Set l =>
        rw [hget, htiempo, procesar_set_ex acc k l (d - now) now hk hcont hsec]
        simp [restaurado, Valor.get, hd, Valor.get_tiempo]
      | Canal c =>
        rw [hget, htiempo]
        show procesar_linea acc "" now = _
        simp [restaurado, Valor.get, hd, procesar_linea]
    · have hget : Valor.get ⟨t, some d⟩ now = none := by simp [Valor.get, hd]
      rw [hget]
      show procesar_linea acc "" now = _
      simp [restaurado, hget, procesar_linea]

/-- One line of the restore loop only prepends (or skips); folding from any
accumulator is folding from `[]` followed by the accumulator. -/
theorem procesar_linea_acc (acc : List (String × Valor)) (linea : String) (now : Nat) :
    procesar_linea acc linea now = procesar_linea [] linea now ++ acc := by
  unfold procesar_linea
  by_cases hne : linea = ""
  · simp [hne]
  · simp only [if_neg hne]
    split
    · rfl
    · split
      · rfl
      · split
        · rfl
        · rfl

theorem levantar_foldl_acc (lineas : List String) (now : Nat) :
    ∀ acc : List (String × Valor),
      lineas.foldl (fun acc l => procesar_linea acc l now) acc
        = lineas.foldl (fun acc l => procesar_linea acc l now) [] ++ acc := by
  induction lineas with
  | nil => intro acc; rfl
  | cons l rest ih =>
    intro acc
    simp only [List.foldl_cons]
    rw [ih (procesar_linea acc l now), ih (procesar_linea [] l now),
      procesar_linea_acc acc l now]
    simp

theorem buscar_none_of_not_mem (tabla : BaseDeDatos) (k : String)
    (h : k ∉ tabla.map Prod.fst) : buscar tabla k = none := by
  induction tabla with
  | nil => rfl
  | cons p rest ih =>
    obtain ⟨k', v⟩ := p
    simp only [List.map_cons, List.mem_cons] at h
    push_neg at h
    obtain ⟨h1, h2⟩ := h
    have h1' : ¬(k' = k) := fun he => h1 he.symm
    simp [buscar, h1', ih h2]

theorem map_some_getD_none (o : Option Valor) : ((o.map some).getD none) = o := by
  cases o <;> rfl

theorem levantar_tabla_cons (l : String) (ls : List String) (now : Nat) :
    levantar_tabla (l :: ls) now = levantar_tabla ls now ++ procesar_linea [] l now := by
  unfold levantar_tabla
  rw [List.foldl_cons, levantar_foldl_acc]

/-- Writing every entry of a well-formed store with the snapshot writer and
reading the lines back with the restore loop yields, pointwise, exactly the
`restaurado` image of the original store. -/
theorem roundtrip_pointwise (tabla : List (String × Valor)) (now : Nat) :
    (tabla.map Prod.fst).Nodup → (∀ e ∈ tabla, EntradaBuena e.1 e.2 now) →
    ∀ k, buscar (levantar_tabla (serializar_tabla tabla now) now) k
      = (buscar tabla k).bind (fun v => restaurado v now) := by
  induction tabla with
  | nil => intro _ _ k; rfl
  | cons e rest ih =>
    obtain ⟨k0, v0⟩ := e
    intro hnodup hwf k
    have hwf0 : EntradaBuena k0 v0 now := hwf (k0, v0) (List.mem_cons_self _ _)
    have hwfr : ∀ e ∈ rest, EntradaBuena e.1 e.2 now :=
      fun e he => hwf e (List.mem_cons_of_mem _ he)
    simp only [List.map_cons, List.nodup_cons] at hnodup
    obtain ⟨hnotin, hnodupr⟩ := hnodup
    have hser : serializar_tabla ((k0, v0) :: rest) now
        = guardar_clave_valor k0 (v0.get now) (v0.get_tiempo now)
            :: serializar_tabla rest now := rfl
    rw [hser, levantar_tabla_cons, buscar_append]
    have hproc := procesar_linea_guardar [] k0 v0 now hwf0
    by_cases hkk : k0 = k
    · subst hkk
      rw [ih hnodupr hwfr k0, buscar_none_of_not_mem rest k0 hnotin]
      simp only [Option.bind, Option.map_none, Option.getD]
      rw [hproc]
      cases hr : restaurado v0 now with
      | none => simp [buscar, hr]
      | some v' => simp [buscar, insertar, hr]
    · have hB : buscar (procesar_linea []
          (guardar_clave_valor k0 (v0.get now) (v0.get_tiempo now)) now) k = none := by
        rw [hproc]
        cases restaurado v0 now with
        | none => rfl
        | some v' => simp [buscar, insertar, hkk]
      rw [hB, map_some_getD_none, ih hnodupr hwfr k]
      simp [buscar, hkk]

/-! ## Claim theorems -/

/-- Claim C1 (code bug): the claim says a parsed command whose uppercased
name is recognized by no family dispatches to `Error("unknown command")` and
leaves the store unchanged.  The source's `crear_comando_handler` builds a
`ComandoStringHandler` unconditionally and its constructor maps every name
other than `"GET"` to `set`, so the unknown command `FOO k v` executes
`SET k v`: it replies `StrSimple("OK")` and writes `k ↦ "v"` into the
(previously empty) store. -/
theorem C1_unknown_command_runs_set :
    despachar_comando ⟨"FOO", some "k", ["v"]⟩ [] 0
      = (.StrSimple "OK", [("k", Valor.no_expirable (.Str "v"))])
    ∧ (despachar_comando ⟨"FOO", some "k", ["v"]⟩ [] 0).2 ≠ ([] : BaseDeDatos) := by
  refine ⟨rfl, ?_⟩
  decide

/-- Claim C4: with a key argument present, `GET k` replies `BulkStr(v)` when
`k` holds the String `v`, and an error whose text begins with `"GetError"`
both when `k` holds a value of another type and when `k` is (logically)
absent; the reply is never a nil (the embedded `ResultadoRedis` reply type
of the source has no nil variant at all). -/
theorem C4_get_semantics (comando : ComandoInfo) (bdd : BaseDeDatos) (now : Nat)
    (k : String) (hclave : comando.get_clave = some k) :
    (∀ v, obtener_valor bdd now k = some (.Str v) → get comando bdd now = .BulkStr v)
    ∧ (∀ t, obtener_valor bdd now k = some t → (∀ s, t ≠ .Str s) →
        ∃ resto, get comando bdd now = .Error ("GetError" ++ resto))
    ∧ (obtener_valor bdd now k = none →
        ∃ resto, get comando bdd now = .Error ("GetError" ++ resto)) := by
  refine ⟨?_, ?_, ?_⟩
  · intro v hv
    simp [get, hclave, hv]
  · intro t ht hns
    refine ⟨" error al obtener la clave", ?_⟩
    cases t with
    | Str s => exact absurd rfl (hns s)
    | Lista l => simp [get, hclave, ht]
    | Set l => simp [get, hclave, ht]
    | Canal c => simp [get, hclave, ht]
  · intro hnone
    refine ⟨" error al obtener la clave", ?_⟩
    simp [get, hclave, hnone]

/-- Witness for C4 at a concrete store: both the String branch and the
wrong-type branch behave as the theorem states. -/
theorem C4_get_semantics_witness :
    get ⟨"GET", some "k", []⟩ [("k", Valor.no_expirable (.Str "x"))] 0 = .BulkStr "x"
    ∧ ∃ resto, get ⟨"GET", some "w", []⟩ [("w", Valor.no_expirable (.Lista []))] 0
        = .Error ("GetError" ++ resto) :=
  ⟨(C4_get_semantics ⟨"GET", some "k", []⟩ [("k", Valor.no_expirable (.Str "x"))] 0 "k"
      rfl).1 "x" (by decide),
   (C4_get_semantics ⟨"GET", some "w", []⟩ [("w", Valor.no_expirable (.Lista []))] 0 "w"
      rfl).2.1 (.Lista []) (by decide) (by intro s h; cases h)⟩

/-- Claim C9: when `k` holds a non-String value, `GETDEL k` replies an error
beginning with `"GetError"` and nevertheless removes `k` from the store —
the state is mutated on the error path. -/
theorem C9_getdel_mutates_on_error (comando : ComandoInfo) (bdd : BaseDeDatos) (now : Nat)
    (k : String) (t : TipoRedis) (hclave : comando.get_clave = some k)
    (ht : obtener_valor bdd now k = some t) (hns : ∀ s, t ≠ .Str s) :
    (∃ resto, (getdel comando bdd now).1 = .Error ("GetError" ++ resto))
    ∧ buscar (getdel comando bdd now).2 k = none := by
  constructor
  · refine ⟨" error al obtener la clave", ?_⟩
    cases t with
    | Str s => exact absurd rfl (hns s)
    | Lista l => simp [getdel, get, hclave, ht]
    | Set l => simp [getdel, get, hclave, ht]
    | Canal c => simp [getdel, get, hclave, ht]
  · simp [getdel, hclave]
    exact buscar_eliminar bdd k

/-- Witness for C9: a key holding a List is deleted by the failing GETDEL. -/
theorem C9_getdel_mutates_on_error_witness :
    (∃ resto, (getdel ⟨"GETDEL", some "k", []⟩ [("k", Valor.no_expirable (.Lista ["a"]))] 0).1
        = .Error ("GetError" ++ resto))
    ∧ buscar (getdel ⟨"GETDEL", some "k", []⟩
        [("k", Valor.no_expirable (.Lista ["a"]))] 0).2 "k" = none :=
  C9_getdel_mutates_on_error ⟨"GETDEL", some "k", []⟩
    [("k", Valor.no_expirable (.Lista ["a"]))] 0 "k" (.Lista ["a"]) rfl (by decide)
    (by intro s h; cases h)

/-- Claim C10: constructing a `ClienteRedis` with timeout argument `0` yields
a handle with no idle deadline (`timeout = None`): `esta_conectado` does not
depend on the current time at all, and reports connectivity purely from the
socket's peek state. -/
theorem C10_timeout_cero (id t0 : Nat) (s : SocketState) (now now' : Nat) :
    (ClienteRedis.new id 0 s t0).timeout = none
    ∧ (ClienteRedis.new id 0 s t0).esta_conectado now
        = (ClienteRedis.new id 0 s t0).esta_conectado now'
    ∧ ((ClienteRedis.new id 0 s t0).esta_conectado now = true ↔
        s.peekErr = false ∧ s.unread ≠ 0) := by
  refine ⟨rfl, rfl, ?_⟩
  show ((if s.peekErr then false else s.unread != 0) && !false) = true ↔ _
  cases hpe : s.peekErr <;> simp

/-- Claim C2 (amended): for every store whose keys are distinct and whose
keys and payload strings avoid the separator `':'` and the reserved tokens
`STRING`/`LIST`/`SET`/`EX` (acknowledged format limitations), serializing
every entry with the snapshot writer and restoring the lines yields,
pointwise, the `restaurado` image of the store: Channel entries and expired
entries are dropped, a String entry restores to the same value with the same
remaining expiration and is expirable iff the writer emitted the `EX` pair,
a non-expirable List/Set entry restores to the same elements — but an
expirable List or Set entry restores with the trailing tokens `"EX"` and the
seconds rendering kept as extra payload elements (the restore loop strips
only the variant tag and the key, never the `EX` pair). -/
theorem C2_snapshot_roundtrip (tabla : List (String × Valor)) (now : Nat)
    (hnodup : (tabla.map Prod.fst).Nodup)
    (hwf : ∀ e ∈ tabla, EntradaBuena e.1 e.2 now) (k : String) :
    buscar (levantar_tabla (serializar_tabla tabla now) now) k
      = (buscar tabla k).bind (fun v => restaurado v now) :=
  roundtrip_pointwise tabla now hnodup hwf k

/-- Witness for C2 at a concrete singleton store holding an expirable
String. -/
theorem C2_snapshot_roundtrip_witness :
    buscar (levantar_tabla (serializar_tabla [("k", Valor.expirable (.Str "v") 5 0)] 0) 0) "k"
      = (buscar [("k", Valor.expirable (.Str "v") 5 0)] "k").bind
          (fun v => restaurado v 0) := by
  refine C2_snapshot_roundtrip [("k", Valor.expirable (.Str "v") 5 0)] 0 (by simp) ?_ "k"
  intro e he
  simp at he
  subst he
  refine ⟨⟨by decide, by decide, by decide, by decide, by decide⟩,
    ⟨by decide, by decide, by decide, by decide, by decide⟩, ?_⟩
  intro d hd
  simp [Valor.expirable] at hd
  omega

/-- Claim C2 counterexample: a live expirable List entry `k ↦ ["a"]` with 5
seconds remaining does not restore to itself — the snapshot line
`LIST:k:a:EX:5` restores to the list `["a", "EX", "5"]`, so the round trip
changes an entry that is neither a Channel nor expired. -/
theorem C2_roundtrip_counterexample :
    buscar (levantar_tabla
        (serializar_tabla [("k", Valor.expirable (.Lista ["a"]) 5 0)] 0) 0) "k"
      = some (Valor.expirable (.Lista ["a", "EX", "5"]) 5 0)
    ∧ buscar [("k", Valor.expirable (.Lista ["a"]) 5 0)] "k"
      = some (Valor.expirable (.Lista ["a"]) 5 0)
    ∧ Valor.expirable (TipoRedis.Lista ["a", "EX", "5"]) 5 0
      ≠ Valor.expirable (.Lista ["a"]) 5 0 := by
  refine ⟨by decide, by decide, by decide⟩

/-- Claim C3 (amended): for signed 32-bit integers `a` and `b`, if `k` holds
the decimal rendering of `a`, `INCRBY k b` replies `BulkStr` of the decimal
rendering of the i32 wraparound sum `i32add a b` and stores that string, so
a subsequent `GET k` returns it; likewise `DECRBY` with `i32sub a b`; when
`k` is absent the base value `0` is used.  The wraparound sum and difference
coincide with `a + b` and `a - b` whenever those fit in `i32` (the original
claim fails only at i32 overflow). -/
theorem C3_incrby_decrby (a b : Int) (k : String) (bdd : BaseDeDatos) (now : Nat)
    (ha1 : -2147483648 ≤ a) (ha2 : a ≤ 2147483647)
    (hb1 : -2147483648 ≤ b) (hb2 : b ≤ 2147483647) :
    (obtener_valor bdd now k = some (.Str (intToString a)) →
      (incrby ⟨"INCRBY", some k, [intToString b]⟩ bdd now).1
          = .BulkStr (intToString (i32add a b))
      ∧ get ⟨"GET", some k, []⟩
            (incrby ⟨"INCRBY", some k, [intToString b]⟩ bdd now).2 now
          = .BulkStr (intToString (i32add a b))
      ∧ (decrby ⟨"DECRBY", some k, [intToString b]⟩ bdd now).1
          = .BulkStr (intToString (i32sub a b))
      ∧ get ⟨"GET", some k, []⟩
            (decrby ⟨"DECRBY", some k, [intToString b]⟩ bdd now).2 now
          = .BulkStr (intToString (i32sub a b)))
    ∧ (obtener_valor bdd now k = none →
        (incrby ⟨"INCRBY", some k, [intToString b]⟩ bdd now).1
          = .BulkStr (intToString (i32add 0 b)))
    ∧ (-2147483648 ≤ a + b → a + b ≤ 2147483647 → i32add a b = a + b)
    ∧ (-2147483648 ≤ a - b → a - b ≤ 2147483647 → i32sub a b = a - b) := by
  have hpa := parseI32_intToString a ha1 ha2
  have hpb := parseI32_intToString b hb1 hb2
  refine ⟨?_, ?_, ?_, ?_⟩
  · intro hk
    refine ⟨?_, ?_, ?_, ?_⟩
    · simp [incrby, operar_sobre_int, ComandoInfo.get_clave, ComandoInfo.get_parametro,
        hk, hpa, hpb]
    · simp only [incrby, operar_sobre_int, ComandoInfo.get_clave, ComandoInfo.get_parametro,
        hk, hpa, hpb]
      simp [get, ComandoInfo.get_clave, obtener_valor_guardar_mismo]
    · simp [decrby, operar_sobre_int, ComandoInfo.get_clave, ComandoInfo.get_parametro,
        hk, hpa, hpb]
    · simp only [decrby, operar_sobre_int, ComandoInfo.get_clave, ComandoInfo.get_parametro,
        hk, hpa, hpb]
      simp [get, ComandoInfo.get_clave, obtener_valor_guardar_mismo]
  · intro hk
    have h0 : parseI32 "0" = some 0 := by decide
    simp [incrby, operar_sobre_int, ComandoInfo.get_clave, ComandoInfo.get_parametro,
      hk, h0, hpb]
  · intro h1 h2
    simpa [i32add] using wrap32_eq_of_range (a + b) (by omega) (by omega)
  · intro h1 h2
    simpa [i32sub] using wrap32_eq_of_range (a - b) (by omega) (by omega)

/-- Witness for C3: `1` stored at `"c"`, `INCRBY` by `2`. -/
theorem C3_incrby_decrby_witness :
    (incrby ⟨"INCRBY", some "c", [intToString 2]⟩
        [("c", Valor.no_expirable (.Str (intToString 1)))] 0).1
      = .BulkStr (intToString (i32add 1 2)) :=
  ((C3_incrby_decrby 1 2 "c" [("c", Valor.no_expirable (.Str (intToString 1)))] 0
    (by decide) (by decide) (by decide) (by decide)).1 (by decide)).1

/-- Claim C3 counterexample: at `a = 2147483647`, `b = 1` the reply is the
wrapped value `"-2147483648"`, not the mathematical sum `"2147483648"` the
claim asks for. -/
theorem C3_overflow_counterexample :
    (incrby ⟨"INCRBY", some "k", ["1"]⟩
        [("k", Valor.no_expirable (.Str "2147483647"))] 0).1
      = .BulkStr "-2147483648"
    ∧ ("-2147483648" : String) ≠ "2147483648" := by
  constructor
  · rfl
  · decide

/-- Claim C5: `APPEND k s` with `k` holding String `v` stores `v ++ s` and
replies `Int` of the new (byte) length, and a subsequent `GET k` returns the
concatenation; with `k` holding a non-String value it replies an error
beginning with `"GetError"` and leaves the store unchanged; with `k` absent
it stores `s` and replies `Int` of the length of `s`. -/
theorem C5_append_semantics (comando : ComandoInfo) (bdd : BaseDeDatos) (now : Nat)
    (k s : String) (hclave : comando.get_clave = some k)
    (hparam : (comando.get_parametro).1 = some s) :
    (∀ v, obtener_valor bdd now k = some (.Str v) →
      append comando bdd now
        = (.Int (v ++ s).utf8ByteSize, guardar_valor bdd k (.Str (v ++ s)))
      ∧ get ⟨"GET", some k, []⟩ (append comando bdd now).2 now = .BulkStr (v ++ s))
    ∧ (∀ t, obtener_valor bdd now k = some t → (∀ v, t ≠ .Str v) →
        (∃ resto, (append comando bdd now).1 = .Error ("GetError" ++ resto))
        ∧ (append comando bdd now).2 = bdd)
    ∧ (obtener_valor bdd now k = none →
        append comando bdd now = (.Int s.utf8ByteSize, guardar_valor bdd k (.Str s))) := by
  refine ⟨?_, ?_, ?_⟩
  · intro v hv
    have hex : existe_clave bdd now k = true := by simp [existe_clave, hv]
    constructor
    · simp [append, hclave, hparam, hex, get, hv]
    · simp only [append, hclave, hparam, hex, get, hv, if_true]
      simp [get, ComandoInfo.get_clave, obtener_valor_guardar_mismo]
  · intro t ht hns
    have hex : existe_clave bdd now k = true := by simp [existe_clave, ht]
    have hget : get comando bdd now = .Error "GetError error al obtener la clave" := by
      cases t with
      | Str v => exact absurd rfl (hns v)
      | Lista l => simp [get, hclave, ht]
      | Set l => simp [get, hclave, ht]
      | Canal c => simp [get, hclave, ht]
    constructor
    · refine ⟨" error al obtener la clave", ?_⟩
      simp [append, hclave, hparam, hex, hget]
    · simp [append, hclave, hparam, hex, hget]
  · intro hnone
    have hex : existe_clave bdd now k = false := by simp [existe_clave, hnone]
    simp [append, hclave, hparam, hex]

/-- Witness for C5: appending `"b"` to the stored `"a"` yields `"ab"`, byte
length 2, and GET sees the concatenation. -/
theorem C5_append_semantics_witness :
    append ⟨"APPEND", some "k", ["b"]⟩ [("k", Valor.no_expirable (.Str "a"))] 0
      = (.Int ((("a" : String) ++ "b").utf8ByteSize),
         guardar_valor [("k", Valor.no_expirable (.Str "a"))] "k" (.Str ("a" ++ "b")))
    ∧ get ⟨"GET", some "k", []⟩
        (append ⟨"APPEND", some "k", ["b"]⟩ [("k", Valor.no_expirable (.Str "a"))] 0).2 0
      = .BulkStr ("a" ++ "b") :=
  (C5_append_semantics ⟨"APPEND", some "k", ["b"]⟩ [("k", Valor.no_expirable (.Str "a"))]
    0 "k" "b" rfl rfl).1 "a" (by decide)

/-! ### SUBSCRIBE loop lemmas -/

theorem mem_suscribirse (c : Canal) (cliente : Nat) :
    cliente ∈ (c.suscribirse cliente).suscriptores := by
  by_cases h : cliente ∈ c.suscriptores <;> simp [Canal.suscribirse, h]

theorem suscribible_cases (bdd : BaseDeDatos) (now : Nat) (k : String)
    (h : clave_suscribible bdd now k = true) :
    (∃ c, obtener_valor bdd now k = some (.Canal c)) ∨ obtener_valor bdd now k = none := by
  cases hv : obtener_valor bdd now k with
  | none => exact .inr rfl
  | some t =>
    cases t with
    | Canal c => exact .inl ⟨c, rfl⟩
    | Str s => simp [clave_suscribible, hv] at h
    | Lista l => simp [clave_suscribible, hv] at h
    | Set l => simp [clave_suscribible, hv] at h

theorem no_suscribible_cases (bdd : BaseDeDatos) (now : Nat) (k : String)
    (h : clave_suscribible bdd now k = false) :
    ∃ t, obtener_valor bdd now k = some t ∧ ∀ c, t ≠ .Canal c := by
  cases hv : obtener_valor bdd now k with
  | none => simp [clave_suscribible, hv] at h
  | some t =>
    cases t with
    | Canal c => simp [clave_suscribible, hv] at h
    | Str s => exact ⟨.Str s, rfl, by intro c hc; cases hc⟩
    | Lista l => exact ⟨.Lista l, rfl, by intro c hc; cases hc⟩
    | Set l => exact ⟨.Set l, rfl, by intro c hc; cases hc⟩

theorem suscribible_guardar_canal (bdd : BaseDeDatos) (now : Nat) (k k' : String)
    (c : Canal) (h : clave_suscribible bdd now k' = true) :
    clave_suscribible (guardar_valor bdd k (.Canal c)) now k' = true := by
  by_cases hk : k = k'
  · subst hk; simp [clave_suscribible, obtener_valor_guardar_mismo]
  · unfold clave_suscribible at h ⊢
    rw [obtener_valor_guardar_otro bdd now k k' _ hk]
    exact h

theorem no_suscribible_guardar_canal (bdd : BaseDeDatos) (now : Nat) (k k' : String)
    (c : Canal) (hk : k ≠ k') (h : clave_suscribible bdd now k' = false) :
    clave_suscribible (guardar_valor bdd k (.Canal c)) now k' = false := by
  unfold clave_suscribible at h ⊢
  rw [obtener_valor_guardar_otro bdd now k k' _ hk]
  exact h

theorem suscrito_guardar (bdd : BaseDeDatos) (now : Nat) (clave k : String) (cliente : Nat)
    (canal : Canal)
    (h : ∃ c, obtener_valor bdd now k = some (.Canal c) ∧ cliente ∈ c.suscriptores) :
    ∃ c, obtener_valor (guardar_valor bdd clave (.Canal (canal.suscribirse cliente))) now k
        = some (.Canal c) ∧ cliente ∈ c.suscriptores := by
  by_cases hk : clave = k
  · subst hk
    exact ⟨canal.suscribirse cliente, obtener_valor_guardar_mismo bdd now clave _,
      mem_suscribirse canal cliente⟩
  · obtain ⟨c, hc, hm⟩ := h
    exact ⟨c, by rw [obtener_valor_guardar_otro bdd now clave k _ hk]; exact hc, hm⟩

theorem suscrito_preservado (cliente : Nat) (now : Nat) :
    ∀ (claves : List String) (bdd : BaseDeDatos) (r0 : ResultadoRedis) (k : String),
      (∃ c, obtener_valor bdd now k = some (.Canal c) ∧ cliente ∈ c.suscriptores) →
      ∃ c, obtener_valor (subscribe_loop cliente bdd now claves r0).2 now k
          = some (.Canal c) ∧ cliente ∈ c.suscriptores := by
  intro claves
  induction claves with
  | nil => intro bdd r0 k h; exact h
  | cons clave rest ih =>
    intro bdd r0 k h
    cases hv : obtener_valor bdd now clave with
    | none =>
      simp only [subscribe_loop, hv]
      exact ih _ _ k (suscrito_guardar bdd now clave k cliente Canal.new h)
    | some t =>
      cases t with
      | Canal c =>
        simp only [subscribe_loop, hv]
        exact ih _ _ k (suscrito_guardar bdd now clave k cliente c h)
      | Str s => simpa only [subscribe_loop, hv] using h
      | Lista l => simpa only [subscribe_loop, hv] using h
      | Set l => simpa only [subscribe_loop, hv] using h

theorem loop_good_result (cliente : Nat) (now : Nat) :
    ∀ (claves : List String) (bdd : BaseDeDatos) (r0 : ResultadoRedis),
      (∀ k ∈ claves, clave_suscribible bdd now k = true) →
      (subscribe_loop cliente bdd now claves r0).1
        = if claves = [] then r0 else .Int 1 := by
  intro claves
  induction claves with
  | nil => intros; rfl
  | cons clave rest ih =>
    intro bdd r0 hg
    have hpres : ∀ c : Canal, ∀ k ∈ rest,
        clave_suscribible (guardar_valor bdd clave (.Canal c)) now k = true :=
      fun c k hk => suscribible_guardar_canal bdd now clave k c
        (hg k (List.mem_cons_of_mem _ hk))
    rcases suscribible_cases bdd now clave (hg clave (List.mem_cons_self _ _)) with
      ⟨c, hv⟩ | hv
    · simp only [subscribe_loop, hv]
      rw [ih _ (.Int 1) (hpres _)]
      simp
    · simp only [subscribe_loop, hv]
      rw [ih _ (.Int 1) (hpres _)]
      simp

theorem loop_good_subscribed (cliente : Nat) (now : Nat) :
    ∀ (claves : List String) (bdd : BaseDeDatos) (r0 : ResultadoRedis),
      (∀ k ∈ claves, clave_suscribible bdd now k = true) →
      ∀ k ∈ claves, ∃ c : Canal,
        obtener_valor (subscribe_loop cliente bdd now claves r0).2 now k
            = some (.Canal c) ∧ cliente ∈ c.suscriptores := by
  intro claves
  induction claves with
  | nil => intro bdd r0 _ k hk; simp at hk
  | cons clave rest ih =>
    intro bdd r0 hg k hk
    have hpres : ∀ c : Canal, ∀ k' ∈ rest,
        clave_suscribible (guardar_valor bdd clave (.Canal c)) now k' = true :=
      fun c k' hk' => suscribible_guardar_canal bdd now clave k' c
        (hg k' (List.mem_cons_of_mem _ hk'))
    rcases suscribible_cases bdd now clave (hg clave (List.mem_cons_self _ _)) with
      ⟨c, hv⟩ | hv
    · simp only [subscribe_loop, hv]
      rcases List.mem_cons.mp hk with rfl | hk'
      · exact suscrito_preservado cliente now rest _ (.Int 1) k
          ⟨c.suscribirse cliente, obtener_valor_guardar_mismo bdd now k _,
           mem_suscribirse c cliente⟩
      · exact ih _ (.Int 1) (hpres _) k hk'
    · simp only [subscribe_loop, hv]
      rcases List.mem_cons.mp hk with rfl | hk'
      · exact suscrito_preservado cliente now rest _ (.Int 1) k
          ⟨Canal.new.suscribirse cliente, obtener_valor_guardar_mismo bdd now k _,
           mem_suscribirse Canal.new cliente⟩
      · exact ih _ (.Int 1) (hpres _) k hk'

theorem loop_error (cliente : Nat) (now : Nat) (kBad : String) (post : List String) :
    ∀ (pre : List String) (bdd : BaseDeDatos) (r0 : ResultadoRedis),
      (∀ k ∈ pre, clave_suscribible bdd now k = true) →
      clave_suscribible bdd now kBad = false →
      subscribe_loop cliente bdd now (pre ++ kBad :: post) r0
        = (.Error "WrongType tipo de dato no es un canal",
           (subscribe_loop cliente bdd now pre r0).2) := by
  intro pre
  induction pre with
  | nil =>
    intro bdd r0 _ hbad
    obtain ⟨t, hv, hnc⟩ := no_suscribible_cases bdd now kBad hbad
    cases t with
    | Canal c => exact absurd rfl (hnc c)
    | Str s => simp only [List.nil_append, subscribe_loop, hv]
    | Lista l => simp only [List.nil_append, subscribe_loop, hv]
    | Set l => simp only [List.nil_append, subscribe_loop, hv]
  | cons p pre' ih =>
    intro bdd r0 hg hbad
    have hp := hg p (List.mem_cons_self _ _)
    have hpb : p ≠ kBad := by
      intro he
      subst he
      rw [hp] at hbad
      cases hbad
    have hgood' : ∀ c : Canal, ∀ k ∈ pre',
        clave_suscribible (guardar_valor bdd p (.Canal c)) now k = true :=
      fun c k hk => suscribible_guardar_canal bdd now p k c
        (hg k (List.mem_cons_of_mem _ hk))
    have hbad' : ∀ c : Canal,
        clave_suscribible (guardar_valor bdd p (.Canal c)) now kBad = false :=
      fun c => no_suscribible_guardar_canal bdd now p kBad c hpb hbad
    rcases suscribible_cases bdd now p hp with ⟨c, hv⟩ | hv
    · simp only [List.cons_append, subscribe_loop, hv, List.append_eq]
      rw [ih _ (.Int 1) (hgood' _) (hbad' _)]
    · simp only [List.cons_append, subscribe_loop, hv, List.append_eq]
      rw [ih _ (.Int 1) (hgood' _) (hbad' _)]

/-- Claim C6: for a SUBSCRIBE invocation over its parameter keys, every
absent key is replaced by a fresh Channel before the caller is added; a key
holding a non-Channel value makes the command return the `"WrongType …"`
error and stop processing the remaining keys (the store keeps exactly the
subscriptions made before the offending key); otherwise the caller's handle
ends up in every listed channel, and the reply is `Int(1)` when at least one
subscription occurred and `Int(0)` when no key argument was given. -/
theorem C6_subscribe_semantics (comando : ComandoInfo) (cliente : Nat)
    (bdd : BaseDeDatos) (now : Nat) :
    ((∀ k ∈ comando.parametros, clave_suscribible bdd now k = true) →
      (subscribe comando cliente bdd now).1
          = (if comando.parametros = [] then .Int 0 else .Int 1)
      ∧ ∀ k ∈ comando.parametros, ∃ c : Canal,
          obtener_valor (subscribe comando cliente bdd now).2 now k = some (.Canal c)
          ∧ cliente ∈ c.suscriptores)
    ∧ (∀ pre kBad post, comando.parametros = pre ++ kBad :: post →
        (∀ k ∈ pre, clave_suscribible bdd now k = true) →
        clave_suscribible bdd now kBad = false →
        subscribe comando cliente bdd now
          = (.Error ("WrongType" ++ " tipo de dato no es un canal"),
             (subscribe ⟨comando.nombre, comando.clave, pre⟩ cliente bdd now).2)) := by
  constructor
  · intro hg
    exact ⟨loop_good_result cliente now comando.parametros bdd (.Int 0) hg,
      loop_good_subscribed cliente now comando.parametros bdd (.Int 0) hg⟩
  · intro pre kBad post hsplit hg hbad
    unfold subscribe
    rw [hsplit, loop_error cliente now kBad post pre bdd (.Int 0) hg hbad]
    rfl

/-- Witness for C6: client 7 subscribing to the single absent key `"a"`
gets `Int(1)` and ends up in the channel created at `"a"`. -/
theorem C6_subscribe_semantics_witness :
    (subscribe ⟨"SUBSCRIBE", some "a", ["a"]⟩ 7 [] 0).1 = .Int 1
    ∧ ∃ c : Canal, obtener_valor (subscribe ⟨"SUBSCRIBE", some "a", ["a"]⟩ 7 [] 0).2 0 "a"
        = some (.Canal c) ∧ 7 ∈ c.suscriptores := by
  have h := (C6_subscribe_semantics ⟨"SUBSCRIBE", some "a", ["a"]⟩ 7 [] 0).1 ?_
  · exact ⟨by simpa using h.1, h.2 "a" (by simp)⟩
  · intro k hk
    simp at hk
    subst hk
    decide

/-! ### Persistence actor lemmas -/

theorem espaciadas_persistir :
    ∀ (eventos : List Evento) (st : EstadoPersistidor),
      escriturasEspaciadas st.intervalo st.instante (persistir st eventos) := by
  intro eventos
  induction eventos with
  | nil => intro st; trivial
  | cons e rest ih =>
    intro st
    cases hm : e.mensaje with
    | Info tabla =>
      by_cases hcond : e.tiempo - st.instante ≥ st.intervalo
      · cases hw : guardar_en_archivo e.escritura with
        | error u => simp only [persistir, hm, if_pos hcond, hw]; trivial
        | ok u =>
          simp only [persistir, hm, if_pos hcond, hw]
          exact ⟨hcond, ih { st with instante := e.tiempo }⟩
      · simp only [persistir, hm, if_neg hcond]
        exact ih st
    | ArchivoAPersistir a =>
      simp only [persistir, hm]
      exact ih { st with archivo := a }
    | Cerrar => simp only [persistir, hm]; trivial

/-- Claim C7 (amended): processing the persistence actor's message sequence,
(i) every snapshot actually written is separated from the previous write (or
the start instant) by at least `intervalo`, and a successful write resets
the timer to the write instant; (ii) an `Info` whose elapsed time reaches
`intervalo` but whose file fails to OPEN terminates the loop (nothing more
is processed); (iii) when the file opens, the snapshot is written to the
configured path even if an individual `writeln!` fails — such line failures
are printed and swallowed, the write counts as successful and the loop
continues; (iv) an `Info` arriving before `intervalo` has elapsed is dropped
(the loop continues with unchanged state). -/
theorem C7_persistencia_actor (st : EstadoPersistidor) (eventos : List Evento) :
    escriturasEspaciadas st.intervalo st.instante (persistir st eventos)
    ∧ (∀ e rest tabla, e.mensaje = .Info tabla → e.tiempo - st.instante ≥ st.intervalo →
        e.escritura.openOk = false → persistir st (e :: rest) = [])
    ∧ (∀ e rest tabla, e.mensaje = .Info tabla → e.tiempo - st.instante ≥ st.intervalo →
        e.escritura.openOk = true →
        persistir st (e :: rest)
          = ⟨st.archivo, serializar_tabla tabla e.tiempo, e.tiempo⟩ ::
              persistir { st with instante := e.tiempo } rest)
    ∧ (∀ e rest tabla, e.mensaje = .Info tabla → e.tiempo - st.instante < st.intervalo →
        persistir st (e :: rest) = persistir st rest) := by
  refine ⟨espaciadas_persistir eventos st, ?_, ?_, ?_⟩
  · intro e rest tabla hm hcond hopen
    simp [persistir, hm, hcond, guardar_en_archivo, hopen]
  · intro e rest tabla hm hcond hopen
    simp [persistir, hm, hcond, guardar_en_archivo, hopen]
  · intro e rest tabla hm hcond
    simp [persistir, hm, Nat.not_le.mpr hcond]

/-- Witness for C7: a ready `Info` whose file fails to open stops the loop
before a later `Info` that would otherwise have been written. -/
theorem C7_persistencia_actor_witness :
    persistir ⟨"f", 0, 0⟩
      [⟨0, .Info [], ⟨false, false⟩⟩, ⟨1, .Info [], ⟨true, false⟩⟩] = [] :=
  (C7_persistencia_actor ⟨"f", 0, 0⟩
      [⟨0, .Info [], ⟨false, false⟩⟩, ⟨1, .Info [], ⟨true, false⟩⟩]).2.1
    ⟨0, .Info [], ⟨false, false⟩⟩ [⟨1, .Info [], ⟨true, false⟩⟩] [] rfl (by decide) rfl

/-- Claim C7 counterexample: with `intervalo = 0`, an `Info` write whose
oracle records a failing `writeln!` (`falloLinea = true`, file open
succeeded) does not terminate the loop — a second `Info` is processed and
written afterwards, so "any failure to write causes the actor to terminate"
is false: only an open failure does. -/
theorem C7_line_failure_counterexample :
    persistir ⟨"f", 0, 0⟩ [⟨0, .Info [], ⟨true, true⟩⟩]
      = [⟨"f", [], 0⟩]
    ∧ persistir ⟨"f", 0, 0⟩
        [⟨0, .Info [], ⟨true, true⟩⟩, ⟨1, .Info [], ⟨true, false⟩⟩]
      = [⟨"f", [], 0⟩, ⟨"f", [], 1⟩] := by
  constructor <;> rfl

/-- Claim C8 (amended): `esta_conectado` is true iff the socket is present,
`peek` reports unread bytes without error, and — when a timeout is
configured — the elapsed time since `ultimo_mensaje` does not exceed it.
The socket's writability is never consulted. -/
theorem C8_esta_conectado_caracterizacion (c : ClienteRedis) (now : Nat) :
    c.esta_conectado now = true ↔
      (∃ s, c.socket = some s ∧ s.peekErr = false ∧ s.unread ≠ 0)
      ∧ (∀ d, c.timeout = some d → now - c.ultimo_mensaje ≤ d) := by
  obtain ⟨id, canales, timeout, ultimo, socket⟩ := c
  cases socket with
  | none => simp [ClienteRedis.esta_conectado]
  | some s =>
    cases hpe : s.peekErr with
    | true => simp [ClienteRedis.esta_conectado, hpe]
    | false =>
      cases timeout with
      | none => simp [ClienteRedis.esta_conectado, hpe]
      | some d =>
        simp [ClienteRedis.esta_conectado, hpe]

/-- Claim C8 counterexample: a client whose socket has no unread bytes but
is writable (no timeout configured).  The spec's wording
(`esta_conectado_spec`, "unread OR writable") says connected; the source's
`esta_conectado` consults only `peek` and says disconnected. -/
theorem C8_writable_counterexample :
    ClienteRedis.esta_conectado ⟨1, 0, none, 0, some ⟨0, false, true⟩⟩ 0 = false
    ∧ ClienteRedis.esta_conectado_spec ⟨1, 0, none, 0, some ⟨0, false, true⟩⟩ 0 = true := by
  constructor <;> rfl

end Rusticos
